import Mathlib

/-!
ACH records: a shallow embedding of `entryDetail.go` and `addenda17.go`, and of the file
balancing that `file_test.go` exercises.

The development follows the Go sources of the `ach` package.  A Go `string`
is a sequence of bytes; it is embedded as a list of characters, one character
per byte, so that `len(s)` is `List.length` and `s[lo:hi]` is a sub-list.
A Go `int` is embedded as `Int`.  A Go `error` result is an `Option`: `none`
is `nil`.  A Go run-time panic (a slice out of range) is `none` in the result
of the function that panics.
-/

namespace ach

/-- A Go string, one character per byte. -/
abbrev Str := List Char

/-! ## The Go standard library -/

/-- Go slice expression `s[lo:hi]`: `none` when the bounds are out of range (a panic). -/
def slice (s : Str) (lo hi : Nat) : Option Str :=
  if lo ≤ hi ∧ hi ≤ s.length then some ((s.drop lo).take (hi - lo)) else none

/-- The character of a decimal digit `d < 10`. -/
def decimalDigit (d : Nat) : Char := Char.ofNat (48 + d % 10)

/-- The value of a decimal digit character. -/
def digitVal (c : Char) : Nat := c.toNat - 48

/-- The value of a run of decimal digits, most significant first. -/
def decimalValue (s : Str) : Nat := s.foldl (fun acc c => 10 * acc + digitVal c) 0

/-- Decimal rendering of a natural number with the given recursion budget. -/
def uitoaAux : Nat → Nat → Str
  | 0, _ => []
  | fuel + 1, n =>
    if n < 10 then [decimalDigit n] else uitoaAux fuel (n / 10) ++ [decimalDigit (n % 10)]

/-- Decimal rendering of a natural number, no leading zeros (`"0"` for zero). -/
def uitoa (n : Nat) : Str := uitoaAux (n + 1) n

/-- Go `strconv.Itoa`, also `fmt.Sprintf("%v", i)` for an `int`. -/
def Itoa (i : Int) : Str :=
  if i < 0 then '-' :: uitoa i.natAbs else uitoa i.natAbs

/-- Lower bound of a 64-bit `int`. -/
def minInt : Int := -9223372036854775808

/-- Upper bound of a 64-bit `int`. -/
def maxInt : Int := 9223372036854775807

/-- An unsigned digit run as understood by `strconv.Atoi`: non-empty, decimal digits only. -/
def isDigitRun (s : Str) : Bool := !s.isEmpty && s.all Char.isDigit

/-- Go `strconv.Atoi`: an optional sign and a non-empty run of decimal digits whose value
fits an `int`; `none` is the error result. -/
def Atoi (s : Str) : Option Int :=
  match s with
  | '-' :: ds =>
    if isDigitRun ds ∧ minInt ≤ -(decimalValue ds : Int) then some (-(decimalValue ds : Int))
    else none
  | '+' :: ds =>
    if isDigitRun ds ∧ (decimalValue ds : Int) ≤ maxInt then some (decimalValue ds : Int)
    else none
  | ds =>
    if isDigitRun ds ∧ (decimalValue ds : Int) ≤ maxInt then some (decimalValue ds : Int)
    else none

/-- The UTF-8 encodings of the runes for which Go `unicode.IsSpace` holds: tab, line feed,
vertical tab, form feed, carriage return, space, U+0085, U+00A0, U+1680, U+2000 to U+200A,
U+2028, U+2029, U+202F, U+205F and U+3000. -/
def spaceEncodings : List (List Nat) :=
  [[0x09], [0x0A], [0x0B], [0x0C], [0x0D], [0x20], [0xC2, 0x85], [0xC2, 0xA0],
   [0xE1, 0x9A, 0x80], [0xE2, 0x80, 0x80], [0xE2, 0x80, 0x81], [0xE2, 0x80, 0x82],
   [0xE2, 0x80, 0x83], [0xE2, 0x80, 0x84], [0xE2, 0x80, 0x85], [0xE2, 0x80, 0x86],
   [0xE2, 0x80, 0x87], [0xE2, 0x80, 0x88], [0xE2, 0x80, 0x89], [0xE2, 0x80, 0x8A],
   [0xE2, 0x80, 0xA8], [0xE2, 0x80, 0xA9], [0xE2, 0x80, 0xAF], [0xE2, 0x81, 0x9F],
   [0xE3, 0x80, 0x80]]

/-- The number of bytes of the white-space rune the string starts with, 0 when it starts with
none. -/
def leadingSpaceWidth (s : Str) : Nat :=
  match spaceEncodings.find? (fun e => e.isPrefixOf (s.map Char.toNat)) with
  | some e => e.length
  | none => 0

/-- The number of bytes of the white-space rune the string ends with, 0 when it ends with
none. -/
def trailingSpaceWidth (s : Str) : Nat :=
  match spaceEncodings.find? (fun e => e.isSuffixOf (s.map Char.toNat)) with
  | some e => e.length
  | none => 0

/-- Removal of the leading white-space runes, at most `fuel` of them. -/
def trimLeftSpace : Nat → Str → Str
  | 0, s => s
  | fuel + 1, s =>
    if leadingSpaceWidth s = 0 then s else trimLeftSpace fuel (s.drop (leadingSpaceWidth s))

/-- Removal of the trailing white-space runes, at most `fuel` of them. -/
def trimRightSpace : Nat → Str → Str
  | 0, s => s
  | fuel + 1, s =>
    if trailingSpaceWidth s = 0 then s
    else trimRightSpace fuel (s.take (s.length - trailingSpaceWidth s))

/-- Go `strings.TrimSpace`: the string without its leading and trailing white space, as
defined by Unicode. -/
def TrimSpace (s : Str) : Str :=
  let t := trimLeftSpace s.length s
  trimRightSpace t.length t

/-- The table `asciiSpace` of package `strings`: the white-space characters of ASCII. -/
def asciiSpace (c : Char) : Bool :=
  c.toNat = 9 || c.toNat = 10 || c.toNat = 11 || c.toNat = 12 || c.toNat = 13 || c.toNat = 32

/-- Go `strings.ToUpper`.  A string of ASCII bytes is mapped byte by byte, the letters `a`
to `z` to `A` to `Z`; a string with a byte outside ASCII goes through
`strings.Map(unicode.ToUpper, s)`, whose Unicode case tables are not modelled: that mapping
is the parameter `unicodeUpper`. -/
def ToUpper (unicodeUpper : Str → Str) (s : Str) : Str :=
  if s.all (fun c => c.toNat < 128) then
    s.map (fun c => if 97 ≤ c.toNat ∧ c.toNat ≤ 122 then Char.ofNat (c.toNat - 32) else c)
  else unicodeUpper s

/-! ## Converters (`converters`, composed into every record type) -/

/-- Modelled from the spec: `converters.parseNumField` is not among the sources.
"Parses a fixed-width slice as a non-negative integer, treating all-space/blank as zero":
the spaces around the number are dropped and a run of decimal digits is read as its value;
anything else, the blank field included, is zero. -/
def parseNumField (r : Str) : Int :=
  let t := (r.dropWhile (· == ' ')).rdropWhile (· == ' ')
  if isDigitRun t then (decimalValue t : Int) else 0

/-- Modelled from the spec: `converters.parseStringField` is not among the sources.
"Trims trailing spaces." -/
def parseStringField (r : Str) : Str := r.rdropWhile (· == ' ')

/-- Modelled from the spec: `converters.alphaField` is not among the sources.
"Truncates or right-pads `value` with spaces to exactly `width` characters; left-justified." -/
def alphaField (s : Str) (max : Nat) : Str :=
  if s.length > max then s.take max else s ++ List.replicate (max - s.length) ' '

/-- Modelled from the spec: `converters.numericField` is not among the sources.
"Right-justified, zero-padded decimal rendering"; a rendering longer than the width
"silently truncates high-order digits". -/
def numericField (n : Int) (max : Nat) : Str :=
  let s := Itoa n
  if s.length > max then s.drop (s.length - max) else List.replicate (max - s.length) '0' ++ s

/-- Modelled from the spec: `converters.stringField` is not among the sources and the spec
does not name it.  The accessor built on it is documented in the source as "get the
rdfiIdentification with zero padding", and the round-trip property speaks of leading zero
padding: the value is left-padded with zeros to the width, and cut to the width when longer
(as `alphaField` is). -/
def stringField (s : Str) (max : Nat) : Str :=
  if s.length > max then s.take max else List.replicate (max - s.length) '0' ++ s

/-! ## Validator (`validator`, composed into every record type) -/

/-- The tables of the validator, whose declarations are not among the sources: the closed
enumeration of transaction codes and the permitted ACH character set. -/
structure validator where
  /-- The transaction codes `isTransactionCode` accepts. -/
  transactionCodes : List Int
  /-- The characters `isAlphanumeric` accepts. -/
  achCharacter : Char → Bool
  /-- The addenda type codes `isTypeCode` accepts. -/
  typeCodes : List Str

/-- The errors the validator helpers and `strconv.Atoi` return. -/
inductive Err where
  /-- A value outside the closed enumeration of its field. -/
  | InvalidCode
  /-- A character outside the permitted ACH character set. -/
  | InvalidCharacter
  /-- The error of `strconv.Atoi`. -/
  | Atoi (s : Str)
  deriving DecidableEq, Repr

/-- Modelled from the spec: `validator.isTransactionCode` is not among the sources.
"Fail with `InvalidCode` when value is outside the closed enumeration for that field." -/
def isTransactionCode (v : validator) (code : Int) : Option Err :=
  if code ∈ v.transactionCodes then none else some Err.InvalidCode

/-- Modelled from the spec: `validator.isAlphanumeric` is not among the sources.
"Fails with `InvalidCharacter` if value contains characters outside the permitted ACH
character set." -/
def isAlphanumeric (v : validator) (s : Str) : Option Err :=
  if s.all v.achCharacter then none else some Err.InvalidCharacter

/-- Modelled from the spec: `validator.isTypeCode` is not among the sources.
"Fail with `InvalidCode` when value is outside the closed enumeration for that field." -/
def isTypeCode (v : validator) (code : Str) : Option Err :=
  if code ∈ v.typeCodes then none else some Err.InvalidCode

/-- The positional weights of the routing-number check digit. -/
def checkDigitWeights : List Nat := [3, 7, 1, 3, 7, 1, 3, 7]

/-- Modelled from the spec: `validator.CalculateCheckDigit` is not among the sources.
"Apply fixed positional weights `[3,7,1,3,7,1,3,7]` to the 8 digits, sum products, take
`(10 - (sum mod 10)) mod 10`."  A character that is no decimal digit counts as zero. -/
def CalculateCheckDigit (routingNumber : Str) : Int :=
  let digits := routingNumber.map (fun c => if c.isDigit then digitVal c else 0)
  let sum : Nat := (List.zipWith (· * ·) checkDigitWeights digits).sum
  (10 - (sum : Int) % 10) % 10

/-! ## Field errors -/

/-- The message of a `FieldError`: the message constants of the package are not among the
sources, so a message is kept as its kind together with the values formatted into it. -/
inductive Msg where
  /-- The constant `msgFieldInclusion`. -/
  | msgFieldInclusion
  /-- The text `fmt.Sprintf(msgRecordType, n)`. -/
  | msgRecordType (n : Int)
  /-- The text `fmt.Sprintf(msgValidCheckDigit, calculated)`. -/
  | msgValidCheckDigit (calculated : Int)
  /-- The constant `msgAddendaTypeCode`. -/
  | msgAddendaTypeCode
  /-- The text `err.Error()`. -/
  | error (err : Err)
  deriving DecidableEq, Repr

/-- The Go struct `FieldError`. -/
structure FieldError where
  FieldName : String
  Value : Str
  Msg : Msg
  deriving DecidableEq, Repr

/-! ## Addenda -/

/-- The Go struct `Addenda17` (`addenda17.go`). -/
structure Addenda17 where
  ID : Str
  recordType : Str
  typeCode : Str
  PaymentRelatedInformation : Str
  SequenceNumber : Int
  EntryDetailSequenceNumber : Int
  deriving DecidableEq, Repr

/-- The Go interface `Addendumer` with the concrete types that implement it.  Only
`Addenda17` is declared among the sources; a record of another type is kept as its
94-character line. -/
inductive Addendumer where
  | Addenda02 (record : Str)
  | Addenda05 (record : Str)
  | Addenda17 (a : Addenda17)
  | Addenda18 (record : Str)
  | Addenda98 (record : Str)
  | Addenda99 (record : Str)
  deriving DecidableEq, Repr

/-- The concrete types the type switch of `AddAddenda` names, the addenda of which an entry
holds one at most: `Addenda99`, `Addenda98` and `Addenda02`. -/
def Addendumer.exclusive : Addendumer → Bool
  | Addendumer.Addenda99 _ => true
  | Addendumer.Addenda98 _ => true
  | Addendumer.Addenda02 _ => true
  | _ => false

/-! ## Addenda17 (`addenda17.go`) -/

/-- The function `NewAddenda17` returns a new Addenda17 with default values for none exported
fields. -/
def NewAddenda17 : Addenda17 :=
  { ID := [], recordType := "7".toList, typeCode := "17".toList,
    PaymentRelatedInformation := [], SequenceNumber := 0, EntryDetailSequenceNumber := 0 }

/-- The method `Parse` takes the input record string and parses the Addenda17 values; `none`
when a slice of the record is out of range. -/
def Addenda17.Parse (addenda17 : Addenda17) (record : Str) : Option Addenda17 := do
  let typeCode ← slice record 1 3
  let information ← slice record 3 83
  let sequence ← slice record 83 87
  let entrySequence ← slice record 87 94
  pure { addenda17 with
    recordType := "7".toList
    typeCode := typeCode
    PaymentRelatedInformation := TrimSpace information
    SequenceNumber := parseNumField sequence
    EntryDetailSequenceNumber := parseNumField entrySequence }

/-- The method `PaymentRelatedInformationField` returns a zero padded
PaymentRelatedInformation string (the padding of `alphaField`). -/
def Addenda17.PaymentRelatedInformationField (addenda17 : Addenda17) : Str :=
  alphaField addenda17.PaymentRelatedInformation 80

/-- The method `SequenceNumberField` returns a zero padded SequenceNumber string. -/
def Addenda17.SequenceNumberField (addenda17 : Addenda17) : Str :=
  numericField addenda17.SequenceNumber 4

/-- The method `EntryDetailSequenceNumberField` returns a zero padded
EntryDetailSequenceNumber string. -/
def Addenda17.EntryDetailSequenceNumberField (addenda17 : Addenda17) : Str :=
  numericField addenda17.EntryDetailSequenceNumber 7

/-- The method `String` writes the Addenda17 struct to a 94 character string. -/
def Addenda17.String (addenda17 : Addenda17) : Str :=
  addenda17.recordType ++ addenda17.typeCode ++ addenda17.PaymentRelatedInformationField ++
    addenda17.SequenceNumberField ++ addenda17.EntryDetailSequenceNumberField

/-- The method `fieldInclusion` validate mandatory fields are not default values. -/
def Addenda17.fieldInclusion (addenda17 : Addenda17) : Option FieldError :=
  if addenda17.recordType = [] then
    some { FieldName := "recordType", Value := addenda17.recordType,
           Msg := Msg.msgFieldInclusion }
  else if addenda17.typeCode = [] then
    some { FieldName := "TypeCode", Value := addenda17.typeCode, Msg := Msg.msgFieldInclusion }
  else if addenda17.SequenceNumber = 0 then
    some { FieldName := "SequenceNumber", Value := addenda17.SequenceNumberField,
           Msg := Msg.msgFieldInclusion }
  else if addenda17.EntryDetailSequenceNumber = 0 then
    some { FieldName := "EntryDetailSequenceNumber",
           Value := addenda17.EntryDetailSequenceNumberField, Msg := Msg.msgFieldInclusion }
  else none

/-- The method `Validate` performs NACHA format rule checks on the record and returns an
error if not Validated.  The first error encountered is returned. -/
def Addenda17.Validate (v : validator) (addenda17 : Addenda17) : Option FieldError :=
  match addenda17.fieldInclusion with
  | some err => some err
  | none =>
  if addenda17.recordType ≠ "7".toList then
    some { FieldName := "recordType", Value := addenda17.recordType,
           Msg := Msg.msgRecordType 7 }
  else
  match isTypeCode v addenda17.typeCode with
  | some err =>
    some { FieldName := "TypeCode", Value := addenda17.typeCode, Msg := Msg.error err }
  | none =>
  if addenda17.typeCode ≠ "17".toList then
    some { FieldName := "TypeCode", Value := addenda17.typeCode, Msg := Msg.msgAddendaTypeCode }
  else
  match isAlphanumeric v addenda17.PaymentRelatedInformation with
  | some err =>
    some { FieldName := "PaymentRelatedInformation",
           Value := addenda17.PaymentRelatedInformation, Msg := Msg.error err }
  | none => none

/-- The method `TypeCode` defines the specific explanation and format for the addenda17
information. -/
def Addenda17.TypeCode (addenda17 : Addenda17) : Str := addenda17.typeCode

/-! ## Entry detail (`entryDetail.go`) -/

/-- The Go struct `EntryDetail`. -/
structure EntryDetail where
  ID : Str
  recordType : Str
  TransactionCode : Int
  RDFIIdentification : Str
  CheckDigit : Str
  DFIAccountNumber : Str
  Amount : Int
  IdentificationNumber : Str
  IndividualName : Str
  DiscretionaryData : Str
  AddendaRecordIndicator : Int
  TraceNumber : Int
  Addendum : List Addendumer
  Category : Str
  deriving DecidableEq, Repr

/-- The constant `CategoryForward`. -/
def CategoryForward : Str := "Forward".toList

/-- The constant `CategoryReturn`. -/
def CategoryReturn : Str := "Return".toList

/-- The constant `CategoryNOC`. -/
def CategoryNOC : Str := "NOC".toList

/-- The Go zero value of `EntryDetail`. -/
def EntryDetail.zero : EntryDetail :=
  { ID := [], recordType := [], TransactionCode := 0, RDFIIdentification := [],
    CheckDigit := [], DFIAccountNumber := [], Amount := 0, IdentificationNumber := [],
    IndividualName := [], DiscretionaryData := [], AddendaRecordIndicator := 0,
    TraceNumber := 0, Addendum := [], Category := [] }

/-- The function `NewEntryDetail` returns a new EntryDetail with default values for non
exported fields. -/
def NewEntryDetail : EntryDetail :=
  { EntryDetail.zero with recordType := "6".toList, Category := CategoryForward }

/-- The method `Parse` takes the input record string and parses the EntryDetail values;
`none` when a slice of the record is out of range. -/
def EntryDetail.Parse (ed : EntryDetail) (record : Str) : Option EntryDetail := do
  let transactionCode ← slice record 1 3
  let rdfi ← slice record 3 11
  let checkDigit ← slice record 11 12
  let account ← slice record 12 29
  let amount ← slice record 29 39
  let identification ← slice record 39 54
  let name ← slice record 54 76
  let discretionary ← slice record 76 78
  let indicator ← slice record 78 79
  let trace ← slice record 79 94
  pure { ed with
    recordType := "6".toList
    TransactionCode := parseNumField transactionCode
    RDFIIdentification := parseStringField rdfi
    CheckDigit := parseStringField checkDigit
    DFIAccountNumber := account
    Amount := parseNumField amount
    IdentificationNumber := identification
    IndividualName := name
    DiscretionaryData := discretionary
    AddendaRecordIndicator := parseNumField indicator
    TraceNumber := parseNumField trace }

/-- The method `RDFIIdentificationField` get the rdfiIdentification with zero padding. -/
def EntryDetail.RDFIIdentificationField (ed : EntryDetail) : Str :=
  stringField ed.RDFIIdentification 8

/-- The method `DFIAccountNumberField` gets the DFIAccountNumber with space padding. -/
def EntryDetail.DFIAccountNumberField (ed : EntryDetail) : Str :=
  alphaField ed.DFIAccountNumber 17

/-- The method `AmountField` returns a zero padded string of amount. -/
def EntryDetail.AmountField (ed : EntryDetail) : Str :=
  numericField ed.Amount 10

/-- The method `IdentificationNumberField` returns a space padded string of IdentificationNumber. -/
def EntryDetail.IdentificationNumberField (ed : EntryDetail) : Str :=
  alphaField ed.IdentificationNumber 15

/-- The method `IndividualNameField` returns a space padded string of IndividualName. -/
def EntryDetail.IndividualNameField (ed : EntryDetail) : Str :=
  alphaField ed.IndividualName 22

/-- The method `DiscretionaryDataField` returns a space padded string of DiscretionaryData. -/
def EntryDetail.DiscretionaryDataField (ed : EntryDetail) : Str :=
  alphaField ed.DiscretionaryData 2

/-- The method `TraceNumberField` returns a zero padded TraceNumber string. -/
def EntryDetail.TraceNumberField (ed : EntryDetail) : Str :=
  numericField ed.TraceNumber 15

/-- The method `String` writes the EntryDetail struct to a 94 character string. -/
def EntryDetail.String (ed : EntryDetail) : Str :=
  ed.recordType ++ Itoa ed.TransactionCode ++ ed.RDFIIdentificationField ++ ed.CheckDigit ++
    ed.DFIAccountNumberField ++ ed.AmountField ++ ed.IdentificationNumberField ++
    ed.IndividualNameField ++ ed.DiscretionaryDataField ++ Itoa ed.AddendaRecordIndicator ++
    ed.TraceNumberField

/-- The method `fieldInclusion` validate mandatory fields are not default values. -/
def EntryDetail.fieldInclusion (ed : EntryDetail) : Option FieldError :=
  if ed.recordType = [] then
    some { FieldName := "recordType", Value := ed.recordType, Msg := Msg.msgFieldInclusion }
  else if ed.TransactionCode = 0 then
    some { FieldName := "TransactionCode", Value := Itoa ed.TransactionCode,
           Msg := Msg.msgFieldInclusion }
  else if ed.RDFIIdentification = [] then
    some { FieldName := "RDFIIdentification", Value := ed.RDFIIdentificationField,
           Msg := Msg.msgFieldInclusion }
  else if ed.DFIAccountNumber = [] then
    some { FieldName := "DFIAccountNumber", Value := ed.DFIAccountNumber,
           Msg := Msg.msgFieldInclusion }
  else if ed.IndividualName = [] then
    some { FieldName := "IndividualName", Value := ed.IndividualName,
           Msg := Msg.msgFieldInclusion }
  else if ed.TraceNumber = 0 then
    some { FieldName := "TraceNumber", Value := ed.TraceNumberField,
           Msg := Msg.msgFieldInclusion }
  else none

/-- The last step of `Validate`: the check digit is calculated from the zero-padded
identification, the stored one is read with `strconv.Atoi`, and the two are compared. -/
def EntryDetail.validateCheckDigit (ed : EntryDetail) : Option FieldError :=
  let calculated := CalculateCheckDigit ed.RDFIIdentificationField
  match Atoi ed.CheckDigit with
  | none =>
    some { FieldName := "CheckDigit", Value := ed.CheckDigit,
           Msg := Msg.error (Err.Atoi ed.CheckDigit) }
  | some edCheckDigit =>
    if calculated ≠ edCheckDigit then
      some { FieldName := "RDFIIdentification", Value := ed.CheckDigit,
             Msg := Msg.msgValidCheckDigit calculated }
    else none

/-- The method `Validate` performs NACHA format rule checks on the record and returns an
error if not Validated.  The first error encountered is returned. -/
def EntryDetail.Validate (v : validator) (ed : EntryDetail) : Option FieldError :=
  match ed.fieldInclusion with
  | some err => some err
  | none =>
  if ed.recordType ≠ "6".toList then
    some { FieldName := "recordType", Value := ed.recordType, Msg := Msg.msgRecordType 6 }
  else
  match isTransactionCode v ed.TransactionCode with
  | some err =>
    some { FieldName := "TransactionCode", Value := Itoa ed.TransactionCode,
           Msg := Msg.error err }
  | none =>
  match isAlphanumeric v ed.DFIAccountNumber with
  | some err =>
    some { FieldName := "DFIAccountNumber", Value := ed.DFIAccountNumber, Msg := Msg.error err }
  | none =>
  match isAlphanumeric v ed.IdentificationNumber with
  | some err =>
    some { FieldName := "IdentificationNumber", Value := ed.IdentificationNumber,
           Msg := Msg.error err }
  | none =>
  match isAlphanumeric v ed.IndividualName with
  | some err =>
    some { FieldName := "IndividualName", Value := ed.IndividualName, Msg := Msg.error err }
  | none =>
  match isAlphanumeric v ed.DiscretionaryData with
  | some err =>
    some { FieldName := "DiscretionaryData", Value := ed.DiscretionaryData,
           Msg := Msg.error err }
  | none => ed.validateCheckDigit

/-- The method `AddAddenda` appends an Addendumer to the EntryDetail.  The result is the entry
after the call together with the returned slice. -/
def EntryDetail.AddAddenda (ed : EntryDetail) (addenda : Addendumer) :
    EntryDetail × List Addendumer :=
  let ed := { ed with AddendaRecordIndicator := 1 }
  match addenda with
  | Addendumer.Addenda99 _ =>
    let ed := { ed with Category := CategoryReturn }
    let ed := { ed with Addendum := [] }
    let ed := { ed with Addendum := ed.Addendum ++ [addenda] }
    (ed, ed.Addendum)
  | Addendumer.Addenda98 _ =>
    let ed := { ed with Category := CategoryNOC }
    let ed := { ed with Addendum := [] }
    let ed := { ed with Addendum := ed.Addendum ++ [addenda] }
    (ed, ed.Addendum)
  | Addendumer.Addenda02 _ =>
    let ed := { ed with Category := CategoryForward }
    let ed := { ed with Addendum := [] }
    let ed := { ed with Addendum := ed.Addendum ++ [addenda] }
    (ed, ed.Addendum)
  | _ =>
    let ed := { ed with Category := CategoryForward }
    let ed := { ed with Addendum := ed.Addendum ++ [addenda] }
    (ed, ed.Addendum)

/-- The method `SetRDFI` takes the 9 digit RDFI account number and separates it for
RDFIIdentification and CheckDigit; the result is the entry the method returns, `none` when a
slice is out of range. -/
def EntryDetail.SetRDFI (ed : EntryDetail) (rdfi : Str) : Option EntryDetail := do
  let s := stringField rdfi 9
  let identification ← slice s 0 8
  let checkDigit ← slice s 8 9
  pure { ed with
    RDFIIdentification := parseStringField identification
    CheckDigit := parseStringField checkDigit }

/-- The method `SetTraceNumber` takes first 8 digits of ODFI and concatenates a sequence
number onto the TraceNumber. -/
def EntryDetail.SetTraceNumber (ed : EntryDetail) (ODFIIdentification : Str) (seq : Int) :
    EntryDetail :=
  let trace := stringField ODFIIdentification 8 ++ numericField seq 7
  { ed with TraceNumber := parseNumField trace }

/-- The method `SetPOPCheckSerialNumber`, setter for POP CheckSerialNumber which is
characters 1-9 of underlying CheckSerialNumber \ IdentificationNumber. -/
def EntryDetail.SetPOPCheckSerialNumber (ed : EntryDetail) (s : Str) : EntryDetail :=
  { ed with IdentificationNumber := alphaField s 9 }

/-- The method `SetPOPTerminalCity`, setter for POP Terminal City which is characters 10-13 of
underlying CheckSerialNumber \ IdentificationNumber. -/
def EntryDetail.SetPOPTerminalCity (ed : EntryDetail) (s : Str) : EntryDetail :=
  { ed with IdentificationNumber := ed.IdentificationNumber ++ alphaField s 4 }

/-- The method `SetPOPTerminalState`, setter for POP Terminal State which is characters 14-15
of underlying CheckSerialNumber \ IdentificationNumber. -/
def EntryDetail.SetPOPTerminalState (ed : EntryDetail) (s : Str) : EntryDetail :=
  { ed with IdentificationNumber := ed.IdentificationNumber ++ alphaField s 2 }

/-- The method `POPCheckSerialNumberField` is used in POP, characters 1-9 of underlying
IdentificationNumber; `none` when the slice is out of range. -/
def EntryDetail.POPCheckSerialNumberField (ed : EntryDetail) : Option Str := do
  let field ← slice ed.IdentificationNumber 0 9
  pure (parseStringField field)

/-- The method `POPTerminalCityField` is used in POP, characters 10-13 of underlying
IdentificationNumber; `none` when the slice is out of range. -/
def EntryDetail.POPTerminalCityField (ed : EntryDetail) : Option Str := do
  let field ← slice ed.IdentificationNumber 9 13
  pure (parseStringField field)

/-- The method `POPTerminalStateField` is used in POP, characters 14-15 of underlying
IdentificationNumber; `none` when the slice is out of range. -/
def EntryDetail.POPTerminalStateField (ed : EntryDetail) : Option Str := do
  let field ← slice ed.IdentificationNumber 13 15
  pure (parseStringField field)

/-- The method `SetCTXAddendaRecords`, setter for CTX AddendaRecords characters 1-4 of
underlying IndividualName. -/
def EntryDetail.SetCTXAddendaRecords (ed : EntryDetail) (i : Int) : EntryDetail :=
  { ed with IndividualName := numericField i 4 }

/-- The method `SetCTXReceivingCompany`, setter for CTX ReceivingCompany characters 5-20 of
underlying IndividualName; positions 21-22 are reserved blank space. -/
def EntryDetail.SetCTXReceivingCompany (ed : EntryDetail) (s : Str) : EntryDetail :=
  { ed with IndividualName := ed.IndividualName ++ alphaField s 16 ++ "  ".toList }

/-- The method `CTXAddendaRecordsField` is used in CTX files, characters 1-4 of underlying
IndividualName field; `none` when the slice is out of range. -/
def EntryDetail.CTXAddendaRecordsField (ed : EntryDetail) : Option Str := do
  let field ← slice ed.IndividualName 0 4
  pure (parseStringField field)

/-- The method `CTXReceivingCompanyField` is used in CTX files, characters 5-20 of underlying
IndividualName field; `none` when the slice is out of range. -/
def EntryDetail.CTXReceivingCompanyField (ed : EntryDetail) : Option Str := do
  let field ← slice ed.IndividualName 4 20
  pure (parseStringField field)

/-- The method `CTXReservedField` is used in CTX files, characters 21-22 of underlying
IndividualName field; `none` when the slice is out of range. -/
def EntryDetail.CTXReservedField (ed : EntryDetail) : Option Str :=
  slice ed.IndividualName 20 22

/-- The method `SetPaymentType` as R (Recurring), all other values will result in S
(single). -/
def EntryDetail.SetPaymentType (unicodeUpper : Str → Str) (ed : EntryDetail) (t : Str) :
    EntryDetail :=
  let t := ToUpper unicodeUpper (TrimSpace t)
  if t = "R".toList then { ed with DiscretionaryData := "R".toList }
  else { ed with DiscretionaryData := "S".toList }

/-- The method `PaymentTypeField` returns the DiscretionaryData field used in WEB batch files,
after resetting it with `SetPaymentType`.  The result is the entry after the call together
with the returned string. -/
def EntryDetail.PaymentTypeField (unicodeUpper : Str → Str) (ed : EntryDetail) :
    EntryDetail × Str :=
  let ed := ed.SetPaymentType unicodeUpper ed.DiscretionaryData
  (ed, ed.DiscretionaryData)

/-- The method `CreditOrDebit` returns a "C" for credit or "D" for debit based on the entry
TransactionCode; `none` when the slice of the rendered code is out of range. -/
def EntryDetail.CreditOrDebit (ed : EntryDetail) : Option Str := do
  let tc := Itoa ed.TransactionCode
  let second ← slice tc 1 2
  if second = "1".toList ∨ second = "2".toList ∨ second = "3".toList ∨
      second = "4".toList then
    pure "C".toList
  else if second = "5".toList ∨ second = "6".toList ∨ second = "7".toList ∨
      second = "8".toList ∨ second = "9".toList then
    pure "D".toList
  else pure []

/-- A call of one of the two methods that build an entry from a file: `Parse` of a record
line or `AddAddenda` of an addenda record. -/
inductive EntryCall where
  | Parse (record : Str)
  | AddAddenda (addenda : Addendumer)
  deriving DecidableEq, Repr

/-- The entry after one call; `none` when the call panics. -/
def EntryDetail.call (ed : EntryDetail) : EntryCall → Option EntryDetail
  | EntryCall.Parse record => ed.Parse record
  | EntryCall.AddAddenda addenda => some (ed.AddAddenda addenda).1

/-- The entry after a sequence of calls, in order; `none` when one of them panics. -/
def EntryDetail.calls (ed : EntryDetail) : List EntryCall → Option EntryDetail
  | [] => some ed
  | c :: cs =>
    match ed.call c with
    | some next => next.calls cs
    | none => none

/-! ## File (`file.go`, of which only the tests are among the sources) -/

/-- Modelled from the spec: the control record of a batch, with the totals the file compares
its own against; the fields are the ones `file_test.go` sets. -/
structure BatchControl where
  EntryAddendaCount : Int
  TotalDebitEntryDollarAmount : Int
  TotalCreditEntryDollarAmount : Int
  deriving DecidableEq, Repr

/-- Modelled from the spec: a batch, "one Control, an ordered sequence of EntryDetail
records". -/
structure Batch where
  Control : BatchControl
  Entries : List EntryDetail
  deriving DecidableEq, Repr

/-- Modelled from the spec: the control record of a file; the fields are the ones
`file_test.go` sets. -/
structure FileControl where
  BatchCount : Int
  EntryAddendaCount : Int
  TotalDebitEntryDollarAmountInFile : Int
  TotalCreditEntryDollarAmountInFile : Int
  deriving DecidableEq, Repr

/-- Modelled from the spec: a file, "one Control, an ordered sequence of Batches". -/
structure File where
  Control : FileControl
  Batches : List Batch
  deriving DecidableEq, Repr

/-- Modelled from the spec: the named errors of whole-file balancing violations. -/
inductive FileErr where
  | ErrFileBatchCount
  | ErrFileEntryCount
  | ErrFileDebitAmount
  | ErrFileCreditAmount
  deriving DecidableEq, Repr

/-- The Go zero value `Batch{}`. -/
def Batch.zero : Batch :=
  { Control := { EntryAddendaCount := 0, TotalDebitEntryDollarAmount := 0,
                 TotalCreditEntryDollarAmount := 0 },
    Entries := [] }

/-- The file of a new reader, as `file_test.go` obtains it: no batch, control totals zero. -/
def File.zero : File :=
  { Control := { BatchCount := 0, EntryAddendaCount := 0,
                 TotalDebitEntryDollarAmountInFile := 0,
                 TotalCreditEntryDollarAmountInFile := 0 },
    Batches := [] }

/-- Modelled from the spec: `File.addBatch` is not among the sources.  A structural mutator
that appends the batch, preserving insertion order. -/
def File.addBatch (f : File) (batch : Batch) : File :=
  { f with Batches := f.Batches ++ [batch] }

/-- Modelled from the spec: `File.Validate` is not among the sources.  "Checks `BatchCount`
equality, then `EntryAddendaCount` equality (...summed across all batches), then
`TotalDebitEntryDollarAmountInFile`/`TotalCreditEntryDollarAmountInFile` equality against the
sum of each batch's own totals.  Each mismatch yields a distinct named error."  The count of
a batch is the one its Control carries, which is how `file_test.go` builds its batches. -/
def File.Validate (f : File) : Option FileErr :=
  if f.Control.BatchCount ≠ (f.Batches.length : Int) then
    some FileErr.ErrFileBatchCount
  else if f.Control.EntryAddendaCount ≠
      (f.Batches.map (fun b => b.Control.EntryAddendaCount)).sum then
    some FileErr.ErrFileEntryCount
  else if f.Control.TotalDebitEntryDollarAmountInFile ≠
      (f.Batches.map (fun b => b.Control.TotalDebitEntryDollarAmount)).sum then
    some FileErr.ErrFileDebitAmount
  else if f.Control.TotalCreditEntryDollarAmountInFile ≠
      (f.Batches.map (fun b => b.Control.TotalCreditEntryDollarAmount)).sum then
    some FileErr.ErrFileCreditAmount
  else none

/-- A validator used on concrete entries: the transaction codes listed in the documentation
of `EntryDetail.TransactionCode`, letters, digits and the space as characters, and the addenda
type codes the spec lists. -/
def sampleValidator : validator :=
  { transactionCodes := [22, 23, 27, 28, 32, 33, 37, 38]
    achCharacter := fun c => c.isAlphanum || c == ' '
    typeCodes := ["02".toList, "05".toList, "17".toList, "18".toList, "98".toList,
      "99".toList] }

/-! ## Concrete records -/

/-- A 94-character entry detail line. -/
def sampleLine : Str :=
  "62212104288201234567         0000010000ID0001         JOHN DOE              AB1121042880000001".toList

/-- An entry that validates: routing number 121042882, ten thousand cents. -/
def sampleEntry : EntryDetail :=
  { NewEntryDetail with
    TransactionCode := 22
    RDFIIdentification := "12104288".toList
    CheckDigit := "2".toList
    DFIAccountNumber := "01234567".toList
    Amount := 10000
    IdentificationNumber := "ID0001".toList
    IndividualName := "JOHN DOE".toList
    TraceNumber := 121042880000001 }

/-- The sample entry with an amount of eleven decimal digits. -/
def overlongAmountEntry : EntryDetail := { sampleEntry with Amount := 10000000000 }

/-- The sample entry with an addenda record indicator of two decimal digits. -/
def wideIndicatorEntry : EntryDetail := { sampleEntry with AddendaRecordIndicator := 10 }

/-- The sample entry with the seven-digit identification `1210428`. -/
def shortRDFIEntry : EntryDetail := { sampleEntry with RDFIIdentification := "1210428".toList }

/-- An IAT payment-related addenda with the given sequence number. -/
def sampleAddenda17 (seq : Int) : Addendumer :=
  Addendumer.Addenda17
    { ID := [], recordType := "7".toList, typeCode := "17".toList,
      PaymentRelatedInformation := "INVOICE".toList, SequenceNumber := seq,
      EntryDetailSequenceNumber := 1 }

/-- An Addenda17 that validates. -/
def sampleIATAddenda : Addenda17 :=
  { NewAddenda17 with
    PaymentRelatedInformation := "INVOICE 42".toList
    SequenceNumber := 1
    EntryDetailSequenceNumber := 1 }

/-- The sample Addenda17 with a sequence number of five decimal digits. -/
def overlongSequenceAddenda : Addenda17 := { sampleIATAddenda with SequenceNumber := 10000 }

/-- A 94-character Addenda17 line. -/
def sampleAddendaLine : Str :=
  ("717" ++ "INVOICE 42" ++ "".pushn ' ' 70 ++ "0001" ++ "0000001").toList

/-- A file with zero batches, Control.BatchCount 1 and Control.EntryAddendaCount 5. -/
def unbalancedEmptyFile : File :=
  { File.zero with
    Control := { File.zero.Control with BatchCount := 1, EntryAddendaCount := 5 } }

/-- The sample Addenda17 line with the type code 05 at offsets 1..2. -/
def wrongTypeCodeLine : Str :=
  ("705" ++ "INVOICE 42" ++ "".pushn ' ' 70 ++ "0001" ++ "0000001").toList

/-! ## Lemmas -/

theorem toNat_decimalDigit (d : Nat) : (decimalDigit d).toNat = 48 + d % 10 := by
  have h : d % 10 < 10 := Nat.mod_lt _ (by norm_num)
  unfold decimalDigit
  generalize d % 10 = r at h
  interval_cases r <;> rfl

theorem digitVal_decimalDigit (d : Nat) (h : d < 10) : digitVal (decimalDigit d) = d := by
  simp [digitVal, toNat_decimalDigit, Nat.mod_eq_of_lt h]

theorem isDigit_iff (c : Char) : c.isDigit = true ↔ 48 ≤ c.toNat ∧ c.toNat ≤ 57 := by
  simp only [Char.isDigit, Char.toNat, Bool.and_eq_true, decide_eq_true_eq]
  exact Iff.rfl

theorem char_eq_of_toNat (c d : Char) (h : c.toNat = d.toNat) : c = d := by
  apply Char.ext
  apply UInt32.ext
  exact h

theorem decimalDigit_digitVal (c : Char) (h : c.isDigit = true) :
    decimalDigit (digitVal c) = c := by
  rw [isDigit_iff] at h
  apply char_eq_of_toNat
  rw [toNat_decimalDigit, digitVal]
  omega

theorem isDigit_decimalDigit (d : Nat) : (decimalDigit d).isDigit = true := by
  rw [isDigit_iff, toNat_decimalDigit]; omega

theorem digitVal_lt (c : Char) (h : c.isDigit = true) : digitVal c < 10 := by
  rw [isDigit_iff] at h; unfold digitVal; omega

theorem isDigit_ne_space (c : Char) (h : c.isDigit = true) : (c == ' ') = false := by
  rw [isDigit_iff] at h
  cases hc : c == ' '
  · rfl
  · simp at hc; subst hc; revert h; decide


/-! ### Decimal rendering -/

theorem uitoaAux_fuel (f : Nat) :
    ∀ (g n : Nat), n < f → n < g → uitoaAux f n = uitoaAux g n := by
  induction f with
  | zero => intro g n h; omega
  | succ f ih =>
    intro g n hf hg
    cases g with
    | zero => omega
    | succ g =>
      simp only [uitoaAux]
      by_cases h : n < 10
      · simp [h]
      · simp only [h, if_false]
        rw [ih g (n / 10) (by omega) (by omega)]

theorem uitoa_lt (n : Nat) (h : n < 10) : uitoa n = [decimalDigit n] := by
  simp [uitoa, uitoaAux, h]

theorem uitoa_ge (n : Nat) (h : 10 ≤ n) :
    uitoa n = uitoa (n / 10) ++ [decimalDigit (n % 10)] := by
  have h1 : ¬ n < 10 := by omega
  have h2 : uitoaAux (n + 1) n = uitoaAux n (n / 10) ++ [decimalDigit (n % 10)] := by
    rw [uitoaAux]; simp only [h1, if_false]
  rw [uitoa, h2, uitoa, uitoaAux_fuel n (n / 10 + 1) (n / 10) (by omega) (by omega)]

theorem uitoa_step (m d : Nat) (hm : 0 < m) (hd : d < 10) :
    uitoa (10 * m + d) = uitoa m ++ [decimalDigit d] := by
  rw [uitoa_ge _ (by omega)]
  have h1 : (10 * m + d) / 10 = m := by omega
  have h2 : (10 * m + d) % 10 = d := by omega
  rw [h1, h2]

theorem decimalValue_append (s : Str) (c : Char) :
    decimalValue (s ++ [c]) = 10 * decimalValue s + digitVal c := by
  simp [decimalValue, List.foldl_append]

theorem decimalValue_uitoa (n : Nat) : decimalValue (uitoa n) = n := by
  induction n using Nat.strong_induction_on with
  | _ n ih =>
    by_cases h : n < 10
    · rw [uitoa_lt n h]
      simp [decimalValue, digitVal_decimalDigit n h]
    · rw [uitoa_ge n (by omega), decimalValue_append, ih (n / 10) (by omega),
        digitVal_decimalDigit _ (Nat.mod_lt _ (by norm_num))]
      omega

theorem uitoa_ne_nil (n : Nat) : uitoa n ≠ [] := by
  by_cases h : n < 10
  · rw [uitoa_lt n h]; simp
  · rw [uitoa_ge n (by omega)]; simp

theorem uitoa_all_isDigit (n : Nat) : ∀ c ∈ uitoa n, c.isDigit = true := by
  induction n using Nat.strong_induction_on with
  | _ n ih =>
    by_cases h : n < 10
    · rw [uitoa_lt n h]
      intro c hc
      simp only [List.mem_singleton] at hc
      rw [hc]; exact isDigit_decimalDigit n
    · rw [uitoa_ge n (by omega)]
      intro c hc
      rcases List.mem_append.mp hc with hc | hc
      · exact ih (n / 10) (by omega) c hc
      · simp only [List.mem_singleton] at hc
        rw [hc]; exact isDigit_decimalDigit _

theorem uitoa_length_le (w : Nat) :
    ∀ n : Nat, n < 10 ^ (w + 1) → (uitoa n).length ≤ w + 1 := by
  induction w with
  | zero =>
    intro n h
    rw [uitoa_lt n (by simpa using h)]; simp
  | succ w ih =>
    intro n h
    by_cases h10 : n < 10
    · rw [uitoa_lt n h10]; simp
    · rw [uitoa_ge n (by omega)]
      have : n / 10 < 10 ^ (w + 1) := by
        rw [Nat.div_lt_iff_lt_mul (by norm_num)]
        calc n < 10 ^ (w + 1 + 1) := h
          _ = 10 ^ (w + 1) * 10 := by ring
      have := ih (n / 10) this
      simp; omega

theorem uitoa_length_ge (w : Nat) : ∀ n : Nat, 10 ^ w ≤ n → w + 1 ≤ (uitoa n).length := by
  induction w with
  | zero =>
    intro n _
    have := uitoa_ne_nil n
    cases h : uitoa n with
    | nil => exact absurd h this
    | cons a t => simp
  | succ w ih =>
    intro n h
    have h10 : 10 ≤ n := by
      calc 10 = 10 ^ 1 := by norm_num
        _ ≤ 10 ^ (w + 1) := Nat.pow_le_pow_right (by norm_num) (by omega)
        _ ≤ n := h
    rw [uitoa_ge n h10]
    have : 10 ^ w ≤ n / 10 := by
      rw [Nat.le_div_iff_mul_le (by norm_num)]
      calc 10 ^ w * 10 = 10 ^ (w + 1) := by ring
        _ ≤ n := h
    have := ih (n / 10) this
    simp; omega


/-! ### Digit runs and the converters -/

theorem isDigitRun_iff (s : Str) :
    isDigitRun s = true ↔ s ≠ [] ∧ ∀ c ∈ s, c.isDigit = true := by
  cases s <;> simp [isDigitRun]

theorem isDigitRun_uitoa (n : Nat) : isDigitRun (uitoa n) = true :=
  (isDigitRun_iff _).mpr ⟨uitoa_ne_nil n, uitoa_all_isDigit n⟩

theorem dropWhile_space_digits (s : Str) (h : ∀ c ∈ s, c.isDigit = true) :
    s.dropWhile (· == ' ') = s := by
  cases s with
  | nil => rfl
  | cons a t =>
    have := isDigit_ne_space a (h a (by simp))
    simp [List.dropWhile, this]

theorem rdropWhile_space_digits (s : Str) (h : ∀ c ∈ s, c.isDigit = true) :
    s.rdropWhile (· == ' ') = s := by
  rw [List.rdropWhile_eq_self_iff]
  intro hl
  have := isDigit_ne_space _ (h _ (List.getLast_mem hl))
  simp [this]

theorem parseNumField_digits (s : Str) (h : isDigitRun s = true) :
    parseNumField s = (decimalValue s : Int) := by
  have h2 := ((isDigitRun_iff s).mp h).2
  simp only [parseNumField]
  rw [dropWhile_space_digits s h2, rdropWhile_space_digits s h2, h]
  simp

theorem parseStringField_digits (s : Str) (h : ∀ c ∈ s, c.isDigit = true) :
    parseStringField s = s :=
  rdropWhile_space_digits s h

theorem decimalValue_zeros (k : Nat) (s : Str) :
    decimalValue (List.replicate k '0' ++ s) = decimalValue s := by
  induction k with
  | zero => rfl
  | succ k ih =>
    have : decimalValue ('0' :: (List.replicate k '0' ++ s))
        = decimalValue (List.replicate k '0' ++ s) := by
      simp [decimalValue, digitVal]
    rw [List.replicate_succ, List.cons_append, this, ih]

theorem alphaField_length (s : Str) (w : Nat) : (alphaField s w).length = w := by
  unfold alphaField
  split
  · simp; omega
  · simp; omega

theorem stringField_length (s : Str) (w : Nat) : (stringField s w).length = w := by
  unfold stringField
  split
  · simp; omega
  · simp; omega

theorem numericField_length (n : Int) (w : Nat) : (numericField n w).length = w := by
  simp only [numericField]
  split
  · simp; omega
  · simp; omega

theorem Itoa_nonneg (n : Int) (h : 0 ≤ n) : Itoa n = uitoa n.toNat := by
  have : ¬ n < 0 := by omega
  simp only [Itoa, this, if_false]
  congr 1
  omega

theorem numericField_nonneg (n : Int) (w : Nat) (h0 : 0 ≤ n) (hw : n < 10 ^ (w + 1)) :
    numericField n (w + 1)
      = List.replicate (w + 1 - (uitoa n.toNat).length) '0' ++ uitoa n.toNat := by
  have hlen : (uitoa n.toNat).length ≤ w + 1 := by
    apply uitoa_length_le
    have : ((n.toNat : Nat) : Int) < ((10 ^ (w + 1) : Nat) : Int) := by
      rw [Int.toNat_of_nonneg h0]; exact_mod_cast hw
    exact_mod_cast this
  simp only [numericField, Itoa_nonneg n h0]
  rw [if_neg (by omega)]

theorem parseNumField_numericField (n : Int) (w : Nat) (h0 : 0 ≤ n) (hw : n < 10 ^ (w + 1)) :
    parseNumField (numericField n (w + 1)) = n := by
  rw [numericField_nonneg n w h0 hw, parseNumField_digits, decimalValue_zeros,
    decimalValue_uitoa, Int.toNat_of_nonneg h0]
  rw [isDigitRun_iff]
  refine ⟨by simp [uitoa_ne_nil], ?_⟩
  intro c hc
  rcases List.mem_append.mp hc with hc | hc
  · rw [List.eq_of_mem_replicate hc]; rfl
  · exact uitoa_all_isDigit _ c hc

theorem digits_eq_zeros_uitoa (ds : Str) :
    ds ≠ [] → (∀ c ∈ ds, c.isDigit = true) →
      ∃ k, ds = List.replicate k '0' ++ uitoa (decimalValue ds) := by
  induction ds using List.reverseRecOn with
  | nil => intro h; exact absurd rfl h
  | append_singleton init c ih =>
    intro _ hall
    have hc : c.isDigit = true := hall c (by simp)
    have hinit : ∀ x ∈ init, x.isDigit = true := fun x hx => hall x (by simp [hx])
    rw [decimalValue_append]
    by_cases h0 : decimalValue init = 0
    · rw [h0]
      simp only [Nat.mul_zero, Nat.zero_add]
      rw [uitoa_lt _ (digitVal_lt c hc), decimalDigit_digitVal c hc]
      by_cases hnil : init = []
      · exact ⟨0, by simp [hnil]⟩
      · obtain ⟨k, hk⟩ := ih hnil hinit
        rw [h0, uitoa_lt 0 (by norm_num)] at hk
        refine ⟨k + 1, ?_⟩
        have hz : decimalDigit 0 = '0' := rfl
        rw [hz] at hk
        conv_lhs => rw [hk]
        rw [List.replicate_succ']
    · have hnil : init ≠ [] := by
        intro h; rw [h] at h0; exact h0 rfl
      obtain ⟨k, hk⟩ := ih hnil hinit
      refine ⟨k, ?_⟩
      rw [uitoa_step _ _ (Nat.pos_of_ne_zero h0) (digitVal_lt c hc), decimalDigit_digitVal c hc,
        ← List.append_assoc, ← hk]

theorem numericField_decimalValue (ds : Str) (hne : ds ≠ [])
    (hall : ∀ c ∈ ds, c.isDigit = true) :
    numericField (decimalValue ds : Int) ds.length = ds := by
  obtain ⟨k, hk⟩ := digits_eq_zeros_uitoa ds hne hall
  have hlen : ds.length = k + (uitoa (decimalValue ds)).length := by
    conv_lhs => rw [hk]
    simp
  simp only [numericField, Itoa_nonneg _ (Int.natCast_nonneg _), Int.toNat_natCast]
  rw [if_neg (by omega)]
  have : ds.length - (uitoa (decimalValue ds)).length = k := by omega
  rw [this]
  exact hk.symm


/-! ### Slices of a record -/

theorem slice_of_le (s : Str) (lo hi : Nat) (h1 : lo ≤ hi) (h2 : hi ≤ s.length) :
    slice s lo hi = some ((s.drop lo).take (hi - lo)) := by
  simp [slice, h1, h2]

theorem slice_of_lt (s : Str) (lo hi : Nat) (h : s.length < hi) : slice s lo hi = none := by
  simp only [slice]
  rw [if_neg (by omega)]

theorem Parse_of_length (ed : EntryDetail) (line : Str) (h : 94 ≤ line.length) :
    ed.Parse line = some { ed with
      recordType := "6".toList
      TransactionCode := parseNumField ((line.drop 1).take 2)
      RDFIIdentification := parseStringField ((line.drop 3).take 8)
      CheckDigit := parseStringField ((line.drop 11).take 1)
      DFIAccountNumber := (line.drop 12).take 17
      Amount := parseNumField ((line.drop 29).take 10)
      IdentificationNumber := (line.drop 39).take 15
      IndividualName := (line.drop 54).take 22
      DiscretionaryData := (line.drop 76).take 2
      AddendaRecordIndicator := parseNumField ((line.drop 78).take 1)
      TraceNumber := parseNumField ((line.drop 79).take 15) } := by
  simp only [EntryDetail.Parse]
  rw [slice_of_le line 1 3 (by omega) (by omega), slice_of_le line 3 11 (by omega) (by omega),
    slice_of_le line 11 12 (by omega) (by omega), slice_of_le line 12 29 (by omega) (by omega),
    slice_of_le line 29 39 (by omega) (by omega), slice_of_le line 39 54 (by omega) (by omega),
    slice_of_le line 54 76 (by omega) (by omega), slice_of_le line 76 78 (by omega) (by omega),
    slice_of_le line 78 79 (by omega) (by omega), slice_of_le line 79 94 (by omega) (by omega)]
  rfl

theorem chunk_of_append (a b c : Str) (lo n : Nat) (ha : a.length = lo) (hb : b.length = n) :
    ((a ++ (b ++ c)).drop lo).take n = b := by
  subst ha hb
  simp

theorem drop_eq_chunk_append (l : Str) (lo n : Nat) :
    l.drop lo = (l.drop lo).take n ++ l.drop (lo + n) := by
  rw [← List.drop_drop, List.take_append_drop]

theorem record_chunks (l : Str) (h : l.length = 94) :
    l = l.take 1 ++ (l.drop 1).take 2 ++ (l.drop 3).take 8 ++ (l.drop 11).take 1 ++
      (l.drop 12).take 17 ++ (l.drop 29).take 10 ++ (l.drop 39).take 15 ++
      (l.drop 54).take 22 ++ (l.drop 76).take 2 ++ (l.drop 78).take 1 ++
      (l.drop 79).take 15 := by
  have h11 : (l.drop 79).take 15 = l.drop 79 := List.take_of_length_le (by simp; omega)
  rw [h11]
  simp only [List.append_assoc]
  rw [← drop_eq_chunk_append l 78 1, ← drop_eq_chunk_append l 76 2,
    ← drop_eq_chunk_append l 54 22, ← drop_eq_chunk_append l 39 15,
    ← drop_eq_chunk_append l 29 10, ← drop_eq_chunk_append l 12 17,
    ← drop_eq_chunk_append l 11 1, ← drop_eq_chunk_append l 3 8,
    ← drop_eq_chunk_append l 1 2, List.take_append_drop]

theorem mem_chunk (l : Str) (lo n : Nat) (c : Char) (h : c ∈ (l.drop lo).take n) :
    ∃ i, lo ≤ i ∧ i < lo + n ∧ l[i]? = some c := by
  obtain ⟨j, hj⟩ := List.mem_iff_getElem?.mp h
  have hjn : j < n := by
    by_contra hcon
    rw [List.getElem?_take_eq_none (by omega)] at hj
    exact Option.noConfusion hj
  rw [List.getElem?_take, if_pos hjn, List.getElem?_drop] at hj
  exact ⟨lo + j, by omega, by omega, hj⟩


/-! ### Validation -/

theorem fieldInclusion_eq_none_iff (ed : EntryDetail) :
    ed.fieldInclusion = none ↔
      ed.recordType ≠ [] ∧ ed.TransactionCode ≠ 0 ∧ ed.RDFIIdentification ≠ [] ∧
      ed.DFIAccountNumber ≠ [] ∧ ed.IndividualName ≠ [] ∧ ed.TraceNumber ≠ 0 := by
  unfold EntryDetail.fieldInclusion
  constructor
  · intro h
    split_ifs at h with h1 h2 h3 h4 h5 h6
    exact ⟨h1, h2, h3, h4, h5, h6⟩
  · rintro ⟨h1, h2, h3, h4, h5, h6⟩
    rw [if_neg h1, if_neg h2, if_neg h3, if_neg h4, if_neg h5, if_neg h6]

theorem validateCheckDigit_eq_none_iff (ed : EntryDetail) :
    ed.validateCheckDigit = none ↔
      Atoi ed.CheckDigit = some (CalculateCheckDigit ed.RDFIIdentificationField) := by
  unfold EntryDetail.validateCheckDigit
  cases h : Atoi ed.CheckDigit with
  | none => simp
  | some d =>
    simp only [Option.some.injEq]
    constructor
    · intro h2
      split_ifs at h2 with h3
      exact (not_not.mp h3).symm
    · intro h2
      rw [if_neg (by rw [h2]; exact not_not.mpr rfl)]

theorem Validate_eq_none_iff (v : validator) (ed : EntryDetail) :
    ed.Validate v = none ↔
      ed.fieldInclusion = none ∧ ed.recordType = "6".toList ∧
      isTransactionCode v ed.TransactionCode = none ∧
      isAlphanumeric v ed.DFIAccountNumber = none ∧
      isAlphanumeric v ed.IdentificationNumber = none ∧
      isAlphanumeric v ed.IndividualName = none ∧
      isAlphanumeric v ed.DiscretionaryData = none ∧
      ed.validateCheckDigit = none := by
  unfold EntryDetail.Validate
  cases h0 : ed.fieldInclusion with
  | some e => simp
  | none =>
    by_cases h1 : ed.recordType = "6".toList
    · cases h2 : isTransactionCode v ed.TransactionCode with
      | some e => simp [h1]
      | none =>
        cases h3 : isAlphanumeric v ed.DFIAccountNumber with
        | some e => simp [h1]
        | none =>
          cases h4 : isAlphanumeric v ed.IdentificationNumber with
          | some e => simp [h1]
          | none =>
            cases h5 : isAlphanumeric v ed.IndividualName with
            | some e => simp [h1]
            | none =>
              cases h6 : isAlphanumeric v ed.DiscretionaryData with
              | some e => simp [h1]
              | none => simp [h1]
    · have h1b : ¬ ed.recordType = ['6'] := h1
      simp [h1b]

theorem Validate_of_checks (v : validator) (ed : EntryDetail)
    (h0 : ed.fieldInclusion = none) (h1 : ed.recordType = "6".toList)
    (h2 : isTransactionCode v ed.TransactionCode = none)
    (h3 : isAlphanumeric v ed.DFIAccountNumber = none)
    (h4 : isAlphanumeric v ed.IdentificationNumber = none)
    (h5 : isAlphanumeric v ed.IndividualName = none)
    (h6 : isAlphanumeric v ed.DiscretionaryData = none) :
    ed.Validate v = ed.validateCheckDigit := by
  unfold EntryDetail.Validate
  simp [h0, h1, h2, h3, h4, h5, h6]

theorem Atoi_digit (c : Char) (h : c.isDigit = true) : Atoi [c] = some (digitVal c : Int) := by
  have hlt := digitVal_lt c h
  have hm : c ≠ '-' := by rintro rfl; revert h; decide
  have hp : c ≠ '+' := by rintro rfl; revert h; decide
  have hrun : isDigitRun [c] = true := by simp [isDigitRun, h]
  have hval : decimalValue [c] = digitVal c := by simp [decimalValue]
  unfold Atoi
  split
  · rename_i ds heq
    simp only [List.cons.injEq] at heq
    exact absurd heq.1 hm
  · rename_i ds heq
    simp only [List.cons.injEq] at heq
    exact absurd heq.1 hp
  · rw [hrun, hval]
    simp [maxInt]
    omega

theorem Atoi_single (s : Str) (h : s.length = 1) (d : Int) (hd : Atoi s = some d) :
    ∃ c, s = [c] ∧ c.isDigit = true := by
  match s, h with
  | [c], _ =>
    refine ⟨c, rfl, ?_⟩
    unfold Atoi at hd
    split at hd
    · rename_i ds heq
      simp only [List.cons.injEq] at heq
      rw [← heq.2] at hd
      simp [isDigitRun] at hd
    · rename_i ds heq
      simp only [List.cons.injEq] at heq
      rw [← heq.2] at hd
      simp [isDigitRun] at hd
    · split_ifs at hd with h1
      simpa [isDigitRun] using h1.1

/-! ### Round trips of the fields -/

theorem alphaField_of_length (s : Str) (w : Nat) (h : s.length = w) : alphaField s w = s := by
  unfold alphaField
  rw [if_neg (by omega), h]
  simp

theorem stringField_of_length (s : Str) (w : Nat) (h : s.length = w) : stringField s w = s := by
  unfold stringField
  rw [if_neg (by omega), h]
  simp

theorem numericField_parseNumField (ds : Str) (w : Nat) (hlen : ds.length = w) (hw : 0 < w)
    (hall : ∀ c ∈ ds, c.isDigit = true) :
    numericField (parseNumField ds) w = ds := by
  have hne : ds ≠ [] := by
    intro h; rw [h] at hlen; simp at hlen; omega
  rw [parseNumField_digits ds ((isDigitRun_iff ds).mpr ⟨hne, hall⟩), ← hlen]
  exact numericField_decimalValue ds hne hall

theorem digitVal_eq_zero (c : Char) (h : c.isDigit = true) (h0 : digitVal c = 0) : c = '0' := by
  rw [isDigit_iff] at h
  apply char_eq_of_toNat
  unfold digitVal at h0
  have : ('0' : Char).toNat = 48 := rfl
  omega

theorem Itoa_parseNumField (ds : Str) (hne : ds ≠ []) (hall : ∀ c ∈ ds, c.isDigit = true)
    (hhead : ds.length = 1 ∨ ds.head? ≠ some '0') :
    Itoa (parseNumField ds) = ds := by
  rw [parseNumField_digits ds ((isDigitRun_iff ds).mpr ⟨hne, hall⟩),
    Itoa_nonneg _ (Int.natCast_nonneg _), Int.toNat_natCast]
  obtain ⟨k, hk⟩ := digits_eq_zeros_uitoa ds hne hall
  cases k with
  | zero => simpa using hk.symm
  | succ k =>
    rcases hhead with h1 | h2
    · have hl : ds.length = (k + 1) + (uitoa (decimalValue ds)).length := by
        conv_lhs => rw [hk]
        simp
      have hpos : 0 < (uitoa (decimalValue ds)).length :=
        List.length_pos.mpr (uitoa_ne_nil _)
      omega
    · exfalso
      apply h2
      rw [hk, List.replicate_succ]
      rfl

theorem chunk_length (l : Str) (lo n : Nat) (h : lo + n ≤ l.length) :
    ((l.drop lo).take n).length = n := by
  simp only [List.length_take, List.length_drop]
  omega

theorem chunk_head (l : Str) (lo n : Nat) (hn : 0 < n) :
    ((l.drop lo).take n).head? = l[lo]? := by
  cases n with
  | zero => omega
  | succ n =>
    cases h : l.drop lo with
    | nil =>
      have : l.length ≤ lo := by simpa using h
      simp [List.getElem?_eq_none this]
    | cons a t =>
      simp only [List.take_succ_cons, List.head?_cons]
      have := List.head?_drop l lo
      rw [h] at this
      simpa using this

theorem Parse_of_chunks (ed : EntryDetail) (c0 c1 c2 c3 c4 c5 c6 c7 c8 c9 c10 : Str)
    (h0 : c0.length = 1) (h1 : c1.length = 2) (h2 : c2.length = 8) (h3 : c3.length = 1)
    (h4 : c4.length = 17) (h5 : c5.length = 10) (h6 : c6.length = 15) (h7 : c7.length = 22)
    (h8 : c8.length = 2) (h9 : c9.length = 1) (h10 : c10.length = 15) :
    ed.Parse (c0 ++ c1 ++ c2 ++ c3 ++ c4 ++ c5 ++ c6 ++ c7 ++ c8 ++ c9 ++ c10) =
      some { ed with
        recordType := "6".toList
        TransactionCode := parseNumField c1
        RDFIIdentification := parseStringField c2
        CheckDigit := parseStringField c3
        DFIAccountNumber := c4
        Amount := parseNumField c5
        IdentificationNumber := c6
        IndividualName := c7
        DiscretionaryData := c8
        AddendaRecordIndicator := parseNumField c9
        TraceNumber := parseNumField c10 } := by
  rw [Parse_of_length _ _ (by simp only [List.length_append]; omega)]
  have e1 := chunk_of_append c0 c1 (c2 ++ c3 ++ c4 ++ c5 ++ c6 ++ c7 ++ c8 ++ c9 ++ c10) 1 2
    h0 h1
  have e2 := chunk_of_append (c0 ++ c1) c2 (c3 ++ c4 ++ c5 ++ c6 ++ c7 ++ c8 ++ c9 ++ c10) 3 8
    (by simp only [List.length_append]; omega) h2
  have e3 := chunk_of_append (c0 ++ c1 ++ c2) c3 (c4 ++ c5 ++ c6 ++ c7 ++ c8 ++ c9 ++ c10) 11 1
    (by simp only [List.length_append]; omega) h3
  have e4 := chunk_of_append (c0 ++ c1 ++ c2 ++ c3) c4 (c5 ++ c6 ++ c7 ++ c8 ++ c9 ++ c10) 12 17
    (by simp only [List.length_append]; omega) h4
  have e5 := chunk_of_append (c0 ++ c1 ++ c2 ++ c3 ++ c4) c5 (c6 ++ c7 ++ c8 ++ c9 ++ c10) 29 10
    (by simp only [List.length_append]; omega) h5
  have e6 := chunk_of_append (c0 ++ c1 ++ c2 ++ c3 ++ c4 ++ c5) c6 (c7 ++ c8 ++ c9 ++ c10) 39 15
    (by simp only [List.length_append]; omega) h6
  have e7 := chunk_of_append (c0 ++ c1 ++ c2 ++ c3 ++ c4 ++ c5 ++ c6) c7 (c8 ++ c9 ++ c10) 54 22
    (by simp only [List.length_append]; omega) h7
  have e8 := chunk_of_append (c0 ++ c1 ++ c2 ++ c3 ++ c4 ++ c5 ++ c6 ++ c7) c8 (c9 ++ c10) 76 2
    (by simp only [List.length_append]; omega) h8
  have e9 := chunk_of_append (c0 ++ c1 ++ c2 ++ c3 ++ c4 ++ c5 ++ c6 ++ c7 ++ c8) c9 c10 78 1
    (by simp only [List.length_append]; omega) h9
  have e10 := chunk_of_append (c0 ++ c1 ++ c2 ++ c3 ++ c4 ++ c5 ++ c6 ++ c7 ++ c8 ++ c9) c10 []
    79 15 (by simp only [List.length_append]; omega) h10
  simp only [List.append_assoc, List.append_nil] at e1 e2 e3 e4 e5 e6 e7 e8 e9 e10 ⊢
  rw [e1, e2, e3, e4, e5, e6, e7, e8, e9, e10]

theorem parseNumField_Itoa (n : Int) (h : 0 ≤ n) : parseNumField (Itoa n) = n := by
  rw [Itoa_nonneg n h, parseNumField_digits _ (isDigitRun_uitoa _), decimalValue_uitoa,
    Int.toNat_of_nonneg h]

theorem Itoa_length_two (n : Int) (h1 : 10 ≤ n) (h2 : n ≤ 99) : (Itoa n).length = 2 := by
  rw [Itoa_nonneg n (by omega)]
  have a := uitoa_length_le 1 n.toNat (by norm_num; omega)
  have b := uitoa_length_ge 1 n.toNat (by norm_num; omega)
  omega

theorem Itoa_length_one (n : Int) (h1 : 0 ≤ n) (h2 : n ≤ 9) : (Itoa n).length = 1 := by
  rw [Itoa_nonneg n h1, uitoa_lt _ (by omega)]
  rfl

theorem alphaField_of_le (s : Str) (w : Nat) (h : s.length ≤ w) :
    alphaField s w = s ++ List.replicate (w - s.length) ' ' := by
  unfold alphaField
  rw [if_neg (by omega)]

theorem stringField_of_le (s : Str) (w : Nat) (h : s.length ≤ w) :
    stringField s w = List.replicate (w - s.length) '0' ++ s := by
  unfold stringField
  rw [if_neg (by omega)]

/-! ### White space -/

theorem leadingSpaceWidth_nil : leadingSpaceWidth [] = 0 := by decide

theorem trailingSpaceWidth_nil : trailingSpaceWidth [] = 0 := by decide

theorem leadingSpaceWidth_cons (c : Char) (rest : Str) (h : c.toNat < 128) :
    leadingSpaceWidth (c :: rest) = if asciiSpace c then 1 else 0 := by
  unfold leadingSpaceWidth asciiSpace
  simp only [spaceEncodings, List.map_cons, List.find?, List.isPrefixOf, Bool.and_true]
  generalize c.toNat = n at h ⊢
  by_cases h1 : n = 9
  · subst h1; simp
  by_cases h2 : n = 10
  · subst h2; simp
  by_cases h3 : n = 11
  · subst h3; simp
  by_cases h4 : n = 12
  · subst h4; simp
  by_cases h5 : n = 13
  · subst h5; simp
  by_cases h6 : n = 32
  · subst h6; simp
  have e1 : (9 == n) = false := by simp; omega
  have e2 : (10 == n) = false := by simp; omega
  have e3 : (11 == n) = false := by simp; omega
  have e4 : (12 == n) = false := by simp; omega
  have e5 : (13 == n) = false := by simp; omega
  have e6 : (32 == n) = false := by simp; omega
  have e7 : (194 == n) = false := by simp; omega
  have e8 : (225 == n) = false := by simp; omega
  have e9 : (226 == n) = false := by simp; omega
  have e10 : (227 == n) = false := by simp; omega
  simp [e1, e2, e3, e4, e5, e6, e7, e8, e9, e10, h1, h2, h3, h4, h5, h6]


theorem trailingSpaceWidth_concat (init : Str) (c : Char) (h : c.toNat < 128) :
    trailingSpaceWidth (init ++ [c]) = if asciiSpace c then 1 else 0 := by
  unfold trailingSpaceWidth asciiSpace
  simp only [spaceEncodings, List.map_append, List.map_cons, List.map_nil, List.find?,
    List.isSuffixOf, List.reverse_append, List.reverse_cons, List.reverse_nil, List.nil_append,
    List.singleton_append, List.cons_append, List.isPrefixOf, Bool.and_true]
  generalize c.toNat = n at h ⊢
  by_cases h1 : n = 9
  · subst h1; simp
  by_cases h2 : n = 10
  · subst h2; simp
  by_cases h3 : n = 11
  · subst h3; simp
  by_cases h4 : n = 12
  · subst h4; simp
  by_cases h5 : n = 13
  · subst h5; simp
  by_cases h6 : n = 32
  · subst h6; simp
  have e1 : (9 == n) = false := by simp; omega
  have e2 : (10 == n) = false := by simp; omega
  have e3 : (11 == n) = false := by simp; omega
  have e4 : (12 == n) = false := by simp; omega
  have e5 : (13 == n) = false := by simp; omega
  have e6 : (32 == n) = false := by simp; omega
  have e7 : (133 == n) = false := by simp; omega
  have e8 : (160 == n) = false := by simp; omega
  have e9 : (128 == n) = false := by simp; omega
  have e10 : (129 == n) = false := by simp; omega
  have e11 : (130 == n) = false := by simp; omega
  have e12 : (131 == n) = false := by simp; omega
  have e13 : (132 == n) = false := by simp; omega
  have e14 : (134 == n) = false := by simp; omega
  have e15 : (135 == n) = false := by simp; omega
  have e16 : (136 == n) = false := by simp; omega
  have e17 : (137 == n) = false := by simp; omega
  have e18 : (138 == n) = false := by simp; omega
  have e19 : (168 == n) = false := by simp; omega
  have e20 : (169 == n) = false := by simp; omega
  have e21 : (175 == n) = false := by simp; omega
  have e22 : (159 == n) = false := by simp; omega
  simp [e1, e2, e3, e4, e5, e6, e7, e8, e9, e10, e11, e12, e13, e14, e15, e16, e17, e18, e19,
    e20, e21, e22, h1, h2, h3, h4, h5, h6]

theorem trimLeftSpace_ascii (fuel : Nat) : ∀ s : Str, (∀ c ∈ s, c.toNat < 128) →
    s.length ≤ fuel → trimLeftSpace fuel s = s.dropWhile asciiSpace := by
  induction fuel with
  | zero =>
    intro s _ hlen
    have : s = [] := List.length_eq_zero.mp (by omega)
    subst this; rfl
  | succ fuel ih =>
    intro s hs hlen
    cases s with
    | nil => simp [trimLeftSpace, leadingSpaceWidth_nil]
    | cons c rest =>
      have hc := hs c (by simp)
      have hrest : ∀ x ∈ rest, x.toNat < 128 := fun x hx => hs x (by simp [hx])
      simp only [trimLeftSpace, leadingSpaceWidth_cons c rest hc]
      by_cases hsp : asciiSpace c = true
      · simp only [hsp, if_true, List.dropWhile_cons]
        simp only [Nat.one_ne_zero, if_false, List.drop_succ_cons, List.drop_zero]
        exact ih rest hrest (by simpa using hlen)
      · simp [hsp, List.dropWhile_cons]

theorem trimRightSpace_ascii (fuel : Nat) : ∀ s : Str, (∀ c ∈ s, c.toNat < 128) →
    s.length ≤ fuel → trimRightSpace fuel s = s.rdropWhile asciiSpace := by
  induction fuel with
  | zero =>
    intro s _ hlen
    have : s = [] := List.length_eq_zero.mp (by omega)
    subst this; rfl
  | succ fuel ih =>
    intro s hs hlen
    rcases List.eq_nil_or_concat s with h | ⟨init, c, h⟩
    · subst h; simp [trimRightSpace, trailingSpaceWidth_nil]
    · rw [List.concat_eq_append] at h
      subst h
      have hc := hs c (by simp)
      have hinit : ∀ x ∈ init, x.toNat < 128 := fun x hx => hs x (by simp [hx])
      simp only [trimRightSpace, trailingSpaceWidth_concat init c hc]
      by_cases hsp : asciiSpace c = true
      · rw [List.rdropWhile_concat_pos _ _ _ hsp]
        simp only [hsp, if_true, Nat.one_ne_zero, if_false, List.length_append,
          List.length_singleton, Nat.add_sub_cancel, List.take_left']
        exact ih init hinit (by simpa using hlen)
      · rw [List.rdropWhile_concat_neg _ _ _ hsp]
        simp [hsp]

theorem TrimSpace_ascii (s : Str) (hs : ∀ c ∈ s, c.toNat < 128) :
    TrimSpace s = (s.dropWhile asciiSpace).rdropWhile asciiSpace := by
  unfold TrimSpace
  simp only
  rw [trimLeftSpace_ascii s.length s hs (Nat.le_refl _)]
  exact trimRightSpace_ascii _ _
    (fun c hc => hs c ((List.dropWhile_sublist _).subset hc)) (Nat.le_refl _)

/-! ### Sequences of calls -/

theorem calls_append (cs : List EntryCall) (c : EntryCall) :
    ∀ ed : EntryDetail, ed.calls (cs ++ [c]) = (ed.calls cs).bind (fun e => e.call c) := by
  induction cs with
  | nil =>
    intro ed
    simp only [List.nil_append, EntryDetail.calls, Option.some_bind]
    cases ed.call c <;> rfl
  | cons d ds ih =>
    intro ed
    simp only [List.cons_append, EntryDetail.calls]
    cases ed.call d with
    | none => rfl
    | some next => exact ih next

theorem AddAddenda_indicator (ed : EntryDetail) (a : Addendumer) :
    (ed.AddAddenda a).1.AddendaRecordIndicator = 1 ∧ (ed.AddAddenda a).1.Addendum ≠ [] := by
  cases a <;> simp [EntryDetail.AddAddenda]

/-! ### File balancing -/

theorem File_Validate_eq_none_iff (f : File) :
    f.Validate = none ↔
      f.Control.BatchCount = (f.Batches.length : Int) ∧
      f.Control.EntryAddendaCount =
        (f.Batches.map (fun b => b.Control.EntryAddendaCount)).sum ∧
      f.Control.TotalDebitEntryDollarAmountInFile =
        (f.Batches.map (fun b => b.Control.TotalDebitEntryDollarAmount)).sum ∧
      f.Control.TotalCreditEntryDollarAmountInFile =
        (f.Batches.map (fun b => b.Control.TotalCreditEntryDollarAmount)).sum := by
  unfold File.Validate
  constructor
  · intro h
    split_ifs at h with h1 h2 h3 h4
    exact ⟨not_not.mp h1, not_not.mp h2, not_not.mp h3, not_not.mp h4⟩
  · rintro ⟨h1, h2, h3, h4⟩
    rw [if_neg (not_not.mpr h1), if_neg (not_not.mpr h2), if_neg (not_not.mpr h3),
      if_neg (not_not.mpr h4)]

/-! ### Addenda17 -/

theorem Addenda17_Parse_of_length (a : Addenda17) (line : Str) (h : 94 ≤ line.length) :
    a.Parse line = some { a with
      recordType := "7".toList
      typeCode := (line.drop 1).take 2
      PaymentRelatedInformation := TrimSpace ((line.drop 3).take 80)
      SequenceNumber := parseNumField ((line.drop 83).take 4)
      EntryDetailSequenceNumber := parseNumField ((line.drop 87).take 7) } := by
  simp only [Addenda17.Parse]
  rw [slice_of_le line 1 3 (by omega) (by omega), slice_of_le line 3 83 (by omega) (by omega),
    slice_of_le line 83 87 (by omega) (by omega), slice_of_le line 87 94 (by omega) (by omega)]
  rfl

theorem Addenda17_Parse_of_chunks (a : Addenda17) (c0 c1 c2 c3 c4 : Str)
    (h0 : c0.length = 1) (h1 : c1.length = 2) (h2 : c2.length = 80) (h3 : c3.length = 4)
    (h4 : c4.length = 7) :
    a.Parse (c0 ++ c1 ++ c2 ++ c3 ++ c4) = some { a with
      recordType := "7".toList
      typeCode := c1
      PaymentRelatedInformation := TrimSpace c2
      SequenceNumber := parseNumField c3
      EntryDetailSequenceNumber := parseNumField c4 } := by
  rw [Addenda17_Parse_of_length _ _ (by simp only [List.length_append]; omega)]
  have e1 := chunk_of_append c0 c1 (c2 ++ c3 ++ c4) 1 2 h0 h1
  have e2 := chunk_of_append (c0 ++ c1) c2 (c3 ++ c4) 3 80
    (by simp only [List.length_append]; omega) h2
  have e3 := chunk_of_append (c0 ++ c1 ++ c2) c3 c4 83 4
    (by simp only [List.length_append]; omega) h3
  have e4 := chunk_of_append (c0 ++ c1 ++ c2 ++ c3) c4 [] 87 7
    (by simp only [List.length_append]; omega) h4
  simp only [List.append_assoc, List.append_nil] at e1 e2 e3 e4 ⊢
  rw [e1, e2, e3, e4]

theorem Addenda17_fieldInclusion_eq_none_iff (a : Addenda17) :
    a.fieldInclusion = none ↔
      a.recordType ≠ [] ∧ a.typeCode ≠ [] ∧ a.SequenceNumber ≠ 0 ∧
      a.EntryDetailSequenceNumber ≠ 0 := by
  unfold Addenda17.fieldInclusion
  constructor
  · intro h
    split_ifs at h with h1 h2 h3 h4
    exact ⟨h1, h2, h3, h4⟩
  · rintro ⟨h1, h2, h3, h4⟩
    rw [if_neg h1, if_neg h2, if_neg h3, if_neg h4]

theorem Addenda17_Validate_eq_none_iff (v : validator) (a : Addenda17) :
    a.Validate v = none ↔
      a.fieldInclusion = none ∧ a.recordType = "7".toList ∧
      isTypeCode v a.typeCode = none ∧ a.typeCode = "17".toList ∧
      isAlphanumeric v a.PaymentRelatedInformation = none := by
  unfold Addenda17.Validate
  cases h0 : a.fieldInclusion with
  | some e => simp
  | none =>
    by_cases h1 : a.recordType = ['7']
    · cases h2 : isTypeCode v a.typeCode with
      | some e => simp [h1]
      | none =>
        by_cases h3 : a.typeCode = ['1', '7']
        · cases h4 : isAlphanumeric v a.PaymentRelatedInformation with
          | some e => simp [h1, h3]
          | none => simp [h1, h3]
        · simp [h1, h3]
    · simp [h1]

theorem rdropWhile_append_replicate (p : Char → Bool) (x : Char) (hx : p x = true) (s : Str)
    (k : Nat) : (s ++ List.replicate k x).rdropWhile p = s.rdropWhile p := by
  induction k with
  | zero => simp
  | succ k ih =>
    rw [List.replicate_succ', ← List.append_assoc, List.rdropWhile_concat_pos _ _ _ hx, ih]

theorem asciiSpace_space : asciiSpace ' ' = true := by decide

theorem TrimSpace_padded (t : Str) (k : Nat) (hascii : ∀ c ∈ t, c.toNat < 128)
    (hhead : ∀ c, t.head? = some c → asciiSpace c = false)
    (hlast : ∀ c, t.getLast? = some c → asciiSpace c = false) :
    TrimSpace (t ++ List.replicate k ' ') = t := by
  have hall : ∀ c ∈ t ++ List.replicate k ' ', c.toNat < 128 := by
    intro c hc
    rcases List.mem_append.mp hc with hc | hc
    · exact hascii c hc
    · rw [List.eq_of_mem_replicate hc]; decide
  rw [TrimSpace_ascii _ hall]
  cases t with
  | nil =>
    have : List.dropWhile asciiSpace ([] ++ List.replicate k ' ') = [] := by
      rw [List.nil_append, List.dropWhile_eq_nil_iff]
      intro c hc
      rw [List.eq_of_mem_replicate hc]; exact asciiSpace_space
    rw [this]; rfl
  | cons c rest =>
    have hc : asciiSpace c = false := hhead c rfl
    rw [List.cons_append, List.dropWhile_cons, hc]
    simp only [Bool.false_eq_true, if_false]
    rw [← List.cons_append, rdropWhile_append_replicate _ _ asciiSpace_space,
      List.rdropWhile_eq_self_iff]
    intro hne
    have := hlast _ (List.getLast?_eq_getLast _ hne)
    simp [this]

/-! ### Padded fields -/

theorem numericField_of_le (n : Int) (w : Nat) (h : (Itoa n).length ≤ w) :
    numericField n w = List.replicate (w - (Itoa n).length) '0' ++ Itoa n := by
  simp only [numericField]
  rw [if_neg (by omega)]

theorem parseNumField_zeros_Itoa (k : Nat) (n : Int) (h : 0 ≤ n) :
    parseNumField (List.replicate k '0' ++ Itoa n) = n := by
  rw [Itoa_nonneg n h, parseNumField_digits, decimalValue_zeros, decimalValue_uitoa,
    Int.toNat_of_nonneg h]
  rw [isDigitRun_iff]
  refine ⟨by simp [uitoa_ne_nil], ?_⟩
  intro c hc
  rcases List.mem_append.mp hc with hc | hc
  · rw [List.eq_of_mem_replicate hc]; rfl
  · exact uitoa_all_isDigit _ c hc

theorem parseStringField_padded (s : Str) (k : Nat) (h : s.getLast? ≠ some ' ') :
    parseStringField (s ++ List.replicate k ' ') = s := by
  unfold parseStringField
  rw [rdropWhile_append_replicate _ _ (by decide), List.rdropWhile_eq_self_iff]
  intro hne
  have hl : s.getLast? = some (s.getLast hne) := List.getLast?_eq_getLast _ hne
  intro hsp
  apply h
  rw [hl]
  simpa using hsp

theorem decimalValue_append_run (a : Str) (b : Str) :
    decimalValue (a ++ b) = decimalValue a * 10 ^ b.length + decimalValue b := by
  induction b using List.reverseRecOn with
  | nil => simp [decimalValue]
  | append_singleton init c ih =>
    rw [← List.append_assoc, decimalValue_append, decimalValue_append, ih]
    simp only [List.length_append, List.length_singleton]
    ring

/-! ### CreditOrDebit -/

theorem Itoa_length_ge_two_iff (n : Int) : 2 ≤ (Itoa n).length ↔ (10 ≤ n ∨ n < 0) := by
  by_cases hneg : n < 0
  · have hpos : 0 < (uitoa n.natAbs).length := List.length_pos.mpr (uitoa_ne_nil _)
    have e : Itoa n = '-' :: uitoa n.natAbs := by
      unfold Itoa
      rw [if_pos hneg]
    have hlen : 2 ≤ (Itoa n).length := by
      rw [e, List.length_cons]; omega
    exact ⟨fun _ => Or.inr hneg, fun _ => hlen⟩
  · by_cases h10 : 10 ≤ n
    · rw [Itoa_nonneg n (by omega)]
      have := uitoa_length_ge 1 n.toNat (by norm_num; omega)
      constructor
      · intro _; exact Or.inl h10
      · intro _; omega
    · rw [Itoa_length_one n (by omega) (by omega)]
      constructor
      · intro h; omega
      · intro h; omega

theorem CreditOrDebit_eq_none_iff (ed : EntryDetail) :
    ed.CreditOrDebit = none ↔ slice (Itoa ed.TransactionCode) 1 2 = none := by
  simp only [EntryDetail.CreditOrDebit, Option.pure_def, Option.bind_eq_bind]
  generalize slice (Itoa ed.TransactionCode) 1 2 = o
  cases o with
  | none => simp
  | some d =>
    simp only [Option.some_bind]
    split_ifs <;> simp

theorem slice_one_two_eq_none_iff (s : Str) : slice s 1 2 = none ↔ s.length < 2 := by
  unfold slice
  constructor
  · intro h
    split_ifs at h with h1
    omega
  · intro h
    rw [if_neg (by omega)]

theorem Itoa_two_digits (n : Int) (h1 : 10 ≤ n) (h2 : n ≤ 99) :
    Itoa n = [decimalDigit (n.toNat / 10), decimalDigit (n.toNat % 10)] := by
  rw [Itoa_nonneg n (by omega), uitoa_ge _ (by omega), uitoa_lt _ (by omega)]
  rfl

theorem CreditOrDebit_two_digits (ed : EntryDetail) (d : Nat) (hd : d < 10)
    (h1 : 10 ≤ ed.TransactionCode) (h2 : ed.TransactionCode ≤ 99)
    (hmod : ed.TransactionCode % 10 = d) :
    ed.CreditOrDebit =
      if 1 ≤ d ∧ d ≤ 4 then some "C".toList
      else if 5 ≤ d ∧ d ≤ 9 then some "D".toList else some [] := by
  have hd' : ed.TransactionCode.toNat % 10 = d := by omega
  have hs : ∀ x y : Char, slice [x, y] 1 2 = some [y] := by
    intro x y; simp [slice]
  unfold EntryDetail.CreditOrDebit
  rw [Itoa_two_digits _ h1 h2, hd']
  simp only [hs, Option.pure_def, Option.bind_eq_bind, Option.some_bind]
  interval_cases d <;> decide

/-! ### Payment type -/

theorem TrimSpace_subset_ascii (t : Str) (h : ∀ c ∈ t, c.toNat < 128) :
    ∀ c ∈ TrimSpace t, c.toNat < 128 := by
  intro c hc
  rw [TrimSpace_ascii t h] at hc
  exact h c ((List.dropWhile_suffix _).subset ((List.rdropWhile_prefix _ _).subset hc))

theorem upper_eq_R_iff (c : Char) :
    (if 97 ≤ c.toNat ∧ c.toNat ≤ 122 then Char.ofNat (c.toNat - 32) else c) = 'R' ↔
      c = 'R' ∨ c = 'r' := by
  by_cases h : 97 ≤ c.toNat ∧ c.toNat ≤ 122
  · rw [if_pos h]
    obtain ⟨h1, h2⟩ := h
    constructor
    · intro he
      right
      apply char_eq_of_toNat
      have hn : (Char.ofNat (c.toNat - 32)).toNat = ('R' : Char).toNat := by rw [he]
      generalize c.toNat = n at h1 h2 hn ⊢
      interval_cases n <;> first | rfl | (exfalso; revert hn; decide)
    · rintro (rfl | rfl)
      · exfalso; revert h1; decide
      · rfl
  · rw [if_neg h]
    constructor
    · intro he; exact Or.inl he
    · rintro (rfl | rfl)
      · rfl
      · exfalso; apply h; decide

theorem ToUpper_eq_R_iff (unicodeUpper : Str → Str) (s : Str) (h : ∀ c ∈ s, c.toNat < 128) :
    ToUpper unicodeUpper s = "R".toList ↔ s = "R".toList ∨ s = "r".toList := by
  have hall : s.all (fun c => decide (c.toNat < 128)) = true := by
    rw [List.all_eq_true]
    intro c hc
    exact decide_eq_true (h c hc)
  unfold ToUpper
  rw [if_pos hall]
  cases s with
  | nil => simp
  | cons c rest =>
    cases rest with
    | nil =>
      simp only [List.map_cons, List.map_nil, String.toList, List.cons.injEq, and_true]
      exact upper_eq_R_iff c
    | cons d rest => simp

theorem SetPaymentType_R (unicodeUpper : Str → Str) (ed : EntryDetail) :
    ed.SetPaymentType unicodeUpper "R".toList = { ed with DiscretionaryData := "R".toList } :=
  rfl

theorem SetPaymentType_S (unicodeUpper : Str → Str) (ed : EntryDetail) :
    ed.SetPaymentType unicodeUpper "S".toList = { ed with DiscretionaryData := "S".toList } :=
  rfl

theorem SetPaymentType_cases (unicodeUpper : Str → Str) (ed : EntryDetail) (t : Str) :
    ed.SetPaymentType unicodeUpper t = { ed with DiscretionaryData := "R".toList } ∨
    ed.SetPaymentType unicodeUpper t = { ed with DiscretionaryData := "S".toList } := by
  unfold EntryDetail.SetPaymentType
  simp only
  split_ifs
  · exact Or.inl rfl
  · exact Or.inr rfl

/-! ### Field inclusion first -/

theorem Validate_of_fieldInclusion (v : validator) (ed : EntryDetail) (err : FieldError)
    (h : ed.fieldInclusion = some err) : ed.Validate v = some err := by
  unfold EntryDetail.Validate
  rw [h]

theorem Validate_msg_of_fieldInclusion_none (v : validator) (ed : EntryDetail)
    (h : ed.fieldInclusion = none) (err : FieldError) (herr : ed.Validate v = some err) :
    err.Msg ≠ Msg.msgFieldInclusion := by
  unfold EntryDetail.Validate at herr
  rw [h] at herr
  simp only at herr
  split_ifs at herr with h1
  · cases herr; simp
  · split at herr
    · cases herr; simp
    · split at herr
      · cases herr; simp
      · split at herr
        · cases herr; simp
        · split at herr
          · cases herr; simp
          · split at herr
            · cases herr; simp
            · unfold EntryDetail.validateCheckDigit at herr
              simp only at herr
              split at herr
              · cases herr; simp
              · split_ifs at herr
                cases herr; simp

/-! ### Exclusive addenda -/

theorem Addenda17_Validate_typeCode (v : validator) (a : Addenda17)
    (hrt : a.recordType = "7".toList) (htc : a.typeCode ≠ []) (htc17 : a.typeCode ≠ "17".toList)
    (hseq : a.SequenceNumber ≠ 0) (hentry : a.EntryDetailSequenceNumber ≠ 0) :
    ∃ err, a.Validate v = some err ∧ err.FieldName = "TypeCode" := by
  have hfi : a.fieldInclusion = none :=
    (Addenda17_fieldInclusion_eq_none_iff a).mpr ⟨by rw [hrt]; decide, htc, hseq, hentry⟩
  unfold Addenda17.Validate
  rw [hfi]
  simp only
  rw [if_neg (not_not.mpr hrt)]
  cases h : isTypeCode v a.typeCode with
  | some e => exact ⟨_, rfl, rfl⟩
  | none =>
    simp only
    rw [if_pos htc17]
    exact ⟨_, rfl, rfl⟩

theorem AddAddenda_tail (ed : EntryDetail) (a : Addendumer)
    (h : ∀ x ∈ ed.Addendum.tail, x.exclusive = false) :
    ∀ x ∈ (ed.AddAddenda a).1.Addendum.tail, x.exclusive = false := by
  cases a with
  | Addenda02 r => intro x hx; simp [EntryDetail.AddAddenda] at hx
  | Addenda98 r => intro x hx; simp [EntryDetail.AddAddenda] at hx
  | Addenda99 r => intro x hx; simp [EntryDetail.AddAddenda] at hx
  | Addenda05 r =>
    intro x hx
    simp only [EntryDetail.AddAddenda] at hx
    cases hl : ed.Addendum with
    | nil => rw [hl] at hx; simp at hx
    | cons y ys =>
      rw [hl] at hx h
      simp only [List.cons_append, List.tail_cons, List.mem_append, List.mem_singleton] at hx
      rcases hx with hx | hx
      · exact h x (by simpa using hx)
      · rw [hx]; rfl
  | Addenda17 r =>
    intro x hx
    simp only [EntryDetail.AddAddenda] at hx
    cases hl : ed.Addendum with
    | nil => rw [hl] at hx; simp at hx
    | cons y ys =>
      rw [hl] at hx h
      simp only [List.cons_append, List.tail_cons, List.mem_append, List.mem_singleton] at hx
      rcases hx with hx | hx
      · exact h x (by simpa using hx)
      · rw [hx]; rfl
  | Addenda18 r =>
    intro x hx
    simp only [EntryDetail.AddAddenda] at hx
    cases hl : ed.Addendum with
    | nil => rw [hl] at hx; simp at hx
    | cons y ys =>
      rw [hl] at hx h
      simp only [List.cons_append, List.tail_cons, List.mem_append, List.mem_singleton] at hx
      rcases hx with hx | hx
      · exact h x (by simpa using hx)
      · rw [hx]; rfl

theorem calls_AddAddenda_tail (as : List Addendumer) :
    ∀ ed : EntryDetail, (∀ x ∈ ed.Addendum.tail, x.exclusive = false) →
      ∃ ed', ed.calls (as.map EntryCall.AddAddenda) = some ed' ∧
        ∀ x ∈ ed'.Addendum.tail, x.exclusive = false := by
  induction as with
  | nil => intro ed h; exact ⟨ed, rfl, h⟩
  | cons a as ih =>
    intro ed h
    simp only [List.map_cons, EntryDetail.calls, EntryDetail.call]
    exact ih _ (AddAddenda_tail ed a h)

theorem filter_exclusive_of_tail (l : List Addendumer)
    (h : ∀ x ∈ l.tail, x.exclusive = false) :
    (l.filter Addendumer.exclusive).length ≤ 1 ∧
    ∀ x ∈ l, x.exclusive = true → l.head? = some x := by
  cases l with
  | nil => simp
  | cons y ys =>
    simp only [List.tail_cons] at h
    have hf : ys.filter Addendumer.exclusive = [] := by
      rw [List.filter_eq_nil_iff]
      intro x hx
      rw [h x hx]; simp
    constructor
    · rw [List.filter_cons]
      split_ifs
      · rw [hf]; simp
      · rw [hf]; simp
    · intro x hx hex
      simp only [List.mem_cons] at hx
      rcases hx with hx | hx
      · rw [hx]; rfl
      · rw [h x hx] at hex; cases hex

/-! ### Sub-fields of IdentificationNumber and IndividualName -/

theorem slice_of_chunks (a b c : Str) (lo hi : Nat) (ha : a.length = lo)
    (hb : lo + b.length = hi) : slice (a ++ (b ++ c)) lo hi = some b := by
  rw [slice_of_le _ _ _ (by omega) (by simp only [List.length_append]; omega)]
  rw [chunk_of_append a b c lo (hi - lo) ha (by omega)]

theorem not_space_of_last (s : Str) (h : ∀ x, s.getLast? = some x → asciiSpace x = false) :
    s.getLast? ≠ some ' ' := by
  intro hs
  have := h ' ' hs
  revert this
  decide

theorem parseStringField_alphaField (s : Str) (w : Nat) (hlen : s.length ≤ w)
    (h : ∀ x, s.getLast? = some x → asciiSpace x = false) :
    parseStringField (alphaField s w) = s := by
  rw [alphaField_of_le s w hlen]
  exact parseStringField_padded s _ (not_space_of_last s h)

theorem numericField_all_isDigit (n : Int) (w : Nat) (h0 : 0 ≤ n) (hw : n < 10 ^ (w + 1)) :
    ∀ c ∈ numericField n (w + 1), c.isDigit = true := by
  rw [numericField_nonneg n w h0 hw]
  intro c hc
  rcases List.mem_append.mp hc with hc | hc
  · rw [List.eq_of_mem_replicate hc]; rfl
  · exact uitoa_all_isDigit _ c hc

/-! ### Bounds of Parse -/

theorem chunk_take (l : Str) (m lo n : Nat) (h : lo + n ≤ m) :
    ((l.take m).drop lo).take n = (l.drop lo).take n := by
  rw [List.drop_take, List.take_take, Nat.min_eq_left (by omega)]

theorem Parse_of_short (ed : EntryDetail) (record : Str) (h : record.length < 94) :
    ed.Parse record = none := by
  have hlast := slice_of_lt record 79 94 h
  simp only [EntryDetail.Parse, Option.pure_def, Option.bind_eq_bind, hlast, Option.none_bind]
  cases slice record 1 3 <;> cases slice record 3 11 <;> cases slice record 11 12 <;>
    cases slice record 12 29 <;> cases slice record 29 39 <;> cases slice record 39 54 <;>
    cases slice record 54 76 <;> cases slice record 76 78 <;> cases slice record 78 79 <;> rfl

theorem Addenda17_Parse_of_short (a : Addenda17) (record : Str) (h : record.length < 94) :
    a.Parse record = none := by
  have hlast := slice_of_lt record 87 94 h
  simp only [Addenda17.Parse, Option.pure_def, Option.bind_eq_bind, hlast, Option.none_bind]
  cases slice record 1 3 <;> cases slice record 3 83 <;> cases slice record 83 87 <;> rfl

theorem Parse_take (ed : EntryDetail) (record : Str) (h : 94 ≤ record.length) :
    ed.Parse record = ed.Parse (record.take 94) := by
  rw [Parse_of_length ed record h,
    Parse_of_length ed (record.take 94) (by simp only [List.length_take]; omega)]
  simp only [chunk_take record 94 _ _ (by omega : 1 + 2 ≤ 94),
    chunk_take record 94 _ _ (by omega : 3 + 8 ≤ 94),
    chunk_take record 94 _ _ (by omega : 11 + 1 ≤ 94),
    chunk_take record 94 _ _ (by omega : 12 + 17 ≤ 94),
    chunk_take record 94 _ _ (by omega : 29 + 10 ≤ 94),
    chunk_take record 94 _ _ (by omega : 39 + 15 ≤ 94),
    chunk_take record 94 _ _ (by omega : 54 + 22 ≤ 94),
    chunk_take record 94 _ _ (by omega : 76 + 2 ≤ 94),
    chunk_take record 94 _ _ (by omega : 78 + 1 ≤ 94),
    chunk_take record 94 _ _ (by omega : 79 + 15 ≤ 94)]

theorem Addenda17_Parse_take (a : Addenda17) (record : Str) (h : 94 ≤ record.length) :
    a.Parse record = a.Parse (record.take 94) := by
  rw [Addenda17_Parse_of_length a record h,
    Addenda17_Parse_of_length a (record.take 94) (by simp only [List.length_take]; omega)]
  simp only [chunk_take record 94 _ _ (by omega : 1 + 2 ≤ 94),
    chunk_take record 94 _ _ (by omega : 3 + 80 ≤ 94),
    chunk_take record 94 _ _ (by omega : 83 + 4 ≤ 94),
    chunk_take record 94 _ _ (by omega : 87 + 7 ≤ 94)]

/-! ## The claims -/

/-- C1 as stated fails: the entry with an Amount of 10000000000 cents validates, and parsing
its String gives the Amount 0. -/
theorem C1_overlong_amount_not_recovered :
    overlongAmountEntry.Validate sampleValidator = none ∧
    overlongAmountEntry.Amount = 10000000000 ∧
    (NewEntryDetail.Parse overlongAmountEntry.String).map EntryDetail.Amount = some 0 := by
  decide

/-- C1 amended: for every EntryDetail on which Validate returns no error and whose values fit
their fields on the line (a two-digit transaction code, as every code of the enumeration is,
RDFIIdentification of at most 8 decimal digits, a one-character CheckDigit, at most 17, 15, 22
and 2 characters of account number, identification number, name and discretionary data,
0 <= Amount < 10^10, 0 <= AddendaRecordIndicator <= 9, 0 <= TraceNumber < 10^15), parsing its
String into a new EntryDetail gives back the integers and the CheckDigit, RDFIIdentification
with leading zeros up to 8 characters, and the alphanumeric fields with trailing spaces up to
their widths. -/
theorem C1_Parse_String_round_trip (v : validator) (ed : EntryDetail)
    (hvalid : ed.Validate v = none)
    (hcodes : ∀ c ∈ v.transactionCodes, 10 ≤ c ∧ c ≤ 99)
    (hrdfi : ed.RDFIIdentification.length ≤ 8)
    (hrdfid : ∀ c ∈ ed.RDFIIdentification, c.isDigit = true)
    (hcd : ed.CheckDigit.length = 1)
    (hacct : ed.DFIAccountNumber.length ≤ 17)
    (hamt : 0 ≤ ed.Amount ∧ ed.Amount < 10 ^ 10)
    (hid : ed.IdentificationNumber.length ≤ 15)
    (hname : ed.IndividualName.length ≤ 22)
    (hdd : ed.DiscretionaryData.length ≤ 2)
    (hari : 0 ≤ ed.AddendaRecordIndicator ∧ ed.AddendaRecordIndicator ≤ 9)
    (htrace : 0 ≤ ed.TraceNumber ∧ ed.TraceNumber < 10 ^ 15) :
    NewEntryDetail.Parse ed.String = some { NewEntryDetail with
      recordType := ed.recordType
      TransactionCode := ed.TransactionCode
      RDFIIdentification :=
        List.replicate (8 - ed.RDFIIdentification.length) '0' ++ ed.RDFIIdentification
      CheckDigit := ed.CheckDigit
      DFIAccountNumber :=
        ed.DFIAccountNumber ++ List.replicate (17 - ed.DFIAccountNumber.length) ' '
      Amount := ed.Amount
      IdentificationNumber :=
        ed.IdentificationNumber ++ List.replicate (15 - ed.IdentificationNumber.length) ' '
      IndividualName :=
        ed.IndividualName ++ List.replicate (22 - ed.IndividualName.length) ' '
      DiscretionaryData :=
        ed.DiscretionaryData ++ List.replicate (2 - ed.DiscretionaryData.length) ' '
      AddendaRecordIndicator := ed.AddendaRecordIndicator
      TraceNumber := ed.TraceNumber } := by
  obtain ⟨-, hrt, htc, -, -, -, -, hchk⟩ := (Validate_eq_none_iff v ed).mp hvalid
  have htc2 : 10 ≤ ed.TransactionCode ∧ ed.TransactionCode ≤ 99 := by
    apply hcodes
    by_contra hmem
    simp [isTransactionCode, hmem] at htc
  obtain ⟨c, hc, hcdig⟩ :=
    Atoi_single ed.CheckDigit hcd _ ((validateCheckDigit_eq_none_iff ed).mp hchk)
  have hpad : ∀ x ∈ List.replicate (8 - ed.RDFIIdentification.length) '0' ++
      ed.RDFIIdentification, x.isDigit = true := by
    intro x hx
    rcases List.mem_append.mp hx with hx | hx
    · rw [List.eq_of_mem_replicate hx]; rfl
    · exact hrdfid x hx
  simp only [EntryDetail.String, EntryDetail.RDFIIdentificationField,
    EntryDetail.DFIAccountNumberField, EntryDetail.AmountField,
    EntryDetail.IdentificationNumberField, EntryDetail.IndividualNameField,
    EntryDetail.DiscretionaryDataField, EntryDetail.TraceNumberField]
  rw [Parse_of_chunks NewEntryDetail _ _ _ _ _ _ _ _ _ _ _ (by rw [hrt]; rfl)
    (Itoa_length_two _ htc2.1 htc2.2) (stringField_length _ _) hcd (alphaField_length _ _)
    (numericField_length _ _) (alphaField_length _ _) (alphaField_length _ _)
    (alphaField_length _ _) (Itoa_length_one _ hari.1 hari.2) (numericField_length _ _)]
  rw [parseNumField_Itoa _ (by omega), parseNumField_Itoa _ hari.1,
    stringField_of_le _ _ hrdfi, parseStringField_digits _ hpad,
    alphaField_of_le _ _ hacct, alphaField_of_le _ _ hid, alphaField_of_le _ _ hname,
    alphaField_of_le _ _ hdd,
    parseNumField_numericField ed.Amount 9 hamt.1 (by simpa using hamt.2),
    parseNumField_numericField ed.TraceNumber 14 htrace.1 (by simpa using htrace.2)]
  have hcdp : parseStringField ed.CheckDigit = ed.CheckDigit := by
    rw [hc]
    exact parseStringField_digits _ (by simpa using hcdig)
  rw [hcdp, hrt]

/-- C1 amended, at the sample entry. -/
theorem C1_Parse_String_round_trip_witness :
    sampleEntry.Validate sampleValidator = none ∧
    NewEntryDetail.Parse sampleEntry.String = some { NewEntryDetail with
      TransactionCode := 22
      RDFIIdentification := "12104288".toList
      CheckDigit := "2".toList
      DFIAccountNumber := "01234567         ".toList
      Amount := 10000
      IdentificationNumber := "ID0001         ".toList
      IndividualName := "JOHN DOE              ".toList
      DiscretionaryData := "  ".toList
      AddendaRecordIndicator := 0
      TraceNumber := 121042880000001 } :=
  ⟨by decide,
    (C1_Parse_String_round_trip sampleValidator sampleEntry (by decide) (by decide) (by decide)
      (by decide) (by decide) (by decide) (by decide) (by decide) (by decide) (by decide)
      (by decide) (by decide)).trans (by decide)⟩

/-- C2: for every 94-character ASCII line whose first character is "6", whose characters at
offsets 1..2 are decimal digits with the first not "0", and whose characters at offsets
3..11, 29..38, 78 and 79..93 are decimal digits, `Parse` followed by `String` returns exactly
the same line. -/
theorem C2_String_Parse_identity (ed0 : EntryDetail) (record : Str)
    (hlen : record.length = 94) (_hascii : ∀ c ∈ record, c.toNat < 128)
    (h0 : record.getD 0 ' ' = '6') (h1 : record.getD 1 ' ' ≠ '0')
    (hd : ∀ i, i < 94 →
      (1 ≤ i ∧ i ≤ 2) ∨ (3 ≤ i ∧ i ≤ 11) ∨ (29 ≤ i ∧ i ≤ 38) ∨ i = 78 ∨ (79 ≤ i ∧ i ≤ 93) →
      (record.getD i ' ').isDigit = true) :
    (ed0.Parse record).map EntryDetail.String = some record := by
  have dig : ∀ lo n,
      (1 ≤ lo ∧ lo + n ≤ 12) ∨ (29 ≤ lo ∧ lo + n ≤ 39) ∨ (78 ≤ lo ∧ lo + n ≤ 94) →
      ∀ c ∈ (record.drop lo).take n, c.isDigit = true := by
    intro lo n hr c hc
    obtain ⟨i, hi1, hi2, hi3⟩ := mem_chunk record lo n c hc
    have := hd i (by omega) (by omega)
    rw [List.getD_eq_getElem?_getD, hi3] at this
    exact this
  have ne : ∀ lo n, 0 < n → lo + n ≤ 94 → (record.drop lo).take n ≠ [] := by
    intro lo n hn hle h
    have := chunk_length record lo n (by omega)
    rw [h] at this
    simp at this
    omega
  have p0 : "6".toList = record.take 1 := by
    cases record with
    | nil => simp at hlen
    | cons a t =>
      simp only [List.getD_cons_zero] at h0
      rw [h0]; rfl
  have p1 : Itoa (parseNumField ((record.drop 1).take 2)) = (record.drop 1).take 2 :=
    Itoa_parseNumField _ (ne 1 2 (by omega) (by omega)) (dig 1 2 (by omega))
      (Or.inr (by
        rw [chunk_head record 1 2 (by omega)]
        intro h
        apply h1
        rw [List.getD_eq_getElem?_getD, h]
        rfl))
  have p2 : stringField (parseStringField ((record.drop 3).take 8)) 8 = (record.drop 3).take 8 := by
    rw [parseStringField_digits _ (dig 3 8 (by omega))]
    exact stringField_of_length _ _ (chunk_length record 3 8 (by omega))
  have p3 : parseStringField ((record.drop 11).take 1) = (record.drop 11).take 1 :=
    parseStringField_digits _ (dig 11 1 (by omega))
  have p4 : alphaField ((record.drop 12).take 17) 17 = (record.drop 12).take 17 :=
    alphaField_of_length _ _ (chunk_length record 12 17 (by omega))
  have p5 : numericField (parseNumField ((record.drop 29).take 10)) 10 = (record.drop 29).take 10 :=
    numericField_parseNumField _ _ (chunk_length record 29 10 (by omega)) (by omega)
      (dig 29 10 (by omega))
  have p6 : alphaField ((record.drop 39).take 15) 15 = (record.drop 39).take 15 :=
    alphaField_of_length _ _ (chunk_length record 39 15 (by omega))
  have p7 : alphaField ((record.drop 54).take 22) 22 = (record.drop 54).take 22 :=
    alphaField_of_length _ _ (chunk_length record 54 22 (by omega))
  have p8 : alphaField ((record.drop 76).take 2) 2 = (record.drop 76).take 2 :=
    alphaField_of_length _ _ (chunk_length record 76 2 (by omega))
  have p9 : Itoa (parseNumField ((record.drop 78).take 1)) = (record.drop 78).take 1 :=
    Itoa_parseNumField _ (ne 78 1 (by omega) (by omega)) (dig 78 1 (by omega))
      (Or.inl (chunk_length record 78 1 (by omega)))
  have p10 : numericField (parseNumField ((record.drop 79).take 15)) 15 = (record.drop 79).take 15 :=
    numericField_parseNumField _ _ (chunk_length record 79 15 (by omega)) (by omega)
      (dig 79 15 (by omega))
  rw [Parse_of_length ed0 record (by omega)]
  simp only [Option.map_some', EntryDetail.String, EntryDetail.RDFIIdentificationField,
    EntryDetail.DFIAccountNumberField, EntryDetail.AmountField,
    EntryDetail.IdentificationNumberField, EntryDetail.IndividualNameField,
    EntryDetail.DiscretionaryDataField, EntryDetail.TraceNumberField]
  rw [p0, p1, p2, p3, p4, p5, p6, p7, p8, p9, p10, ← record_chunks record hlen]

/-- C2, at the sample line. -/
theorem C2_String_Parse_identity_witness :
    sampleLine.length = 94 ∧
    (NewEntryDetail.Parse sampleLine).map EntryDetail.String = some sampleLine :=
  ⟨by decide,
    C2_String_Parse_identity NewEntryDetail sampleLine (by decide) (by decide) (by decide)
      (by decide) (by decide)⟩

/-- C3, at the entry with AddendaRecordIndicator 10: it validates without error and its
String has 95 characters. -/
theorem C3_String_of_wide_indicator :
    wideIndicatorEntry.Validate sampleValidator = none ∧
    wideIndicatorEntry.String.length = 95 := by decide

/-- C4: for every line of at least 94 characters `Parse` completes and sets recordType to
"6" and each field from its byte range of the line: the numeric fields through
`parseNumField`, RDFIIdentification and CheckDigit through `parseStringField`, the
alphanumeric fields verbatim; ID, Addendum and Category are left as they were.  On a run of
decimal digits `parseNumField` is the number the digits write. -/
theorem C4_Parse_field_ranges (ed : EntryDetail) (line : Str) (h : 94 ≤ line.length) :
    ed.Parse line = some { ed with
      recordType := "6".toList
      TransactionCode := parseNumField ((line.drop 1).take 2)
      RDFIIdentification := parseStringField ((line.drop 3).take 8)
      CheckDigit := parseStringField ((line.drop 11).take 1)
      DFIAccountNumber := (line.drop 12).take 17
      Amount := parseNumField ((line.drop 29).take 10)
      IdentificationNumber := (line.drop 39).take 15
      IndividualName := (line.drop 54).take 22
      DiscretionaryData := (line.drop 76).take 2
      AddendaRecordIndicator := parseNumField ((line.drop 78).take 1)
      TraceNumber := parseNumField ((line.drop 79).take 15) } ∧
    ∀ s : Str, isDigitRun s = true → parseNumField s = (decimalValue s : Int) :=
  ⟨Parse_of_length ed line h, parseNumField_digits⟩

/-- C4, at the sample line: the parsed fields are the ones written in the line. -/
theorem C4_Parse_field_ranges_witness :
    94 ≤ sampleLine.length ∧
    NewEntryDetail.Parse sampleLine = some { NewEntryDetail with
      recordType := "6".toList
      TransactionCode := 22
      RDFIIdentification := "12104288".toList
      CheckDigit := "2".toList
      DFIAccountNumber := "01234567         ".toList
      Amount := 10000
      IdentificationNumber := "ID0001         ".toList
      IndividualName := "JOHN DOE              ".toList
      DiscretionaryData := "AB".toList
      AddendaRecordIndicator := 1
      TraceNumber := 121042880000001 } :=
  ⟨by decide,
    (C4_Parse_field_ranges NewEntryDetail sampleLine (by decide)).1.trans (by decide)⟩

/-- C5: when field inclusion and the recordType, transaction-code and alphanumeric checks
pass and CheckDigit is a single decimal digit, `Validate` returns no error exactly when that
digit equals `CalculateCheckDigit` of the 8-character `RDFIIdentificationField`; when they
differ it returns the FieldError on RDFIIdentification whose message carries the calculated
digit. -/
theorem C5_Validate_check_digit (v : validator) (ed : EntryDetail) (c : Char)
    (h0 : ed.fieldInclusion = none) (h1 : ed.recordType = "6".toList)
    (h2 : isTransactionCode v ed.TransactionCode = none)
    (h3 : isAlphanumeric v ed.DFIAccountNumber = none)
    (h4 : isAlphanumeric v ed.IdentificationNumber = none)
    (h5 : isAlphanumeric v ed.IndividualName = none)
    (h6 : isAlphanumeric v ed.DiscretionaryData = none)
    (hcd : ed.CheckDigit = [c]) (hc : c.isDigit = true) :
    ed.RDFIIdentificationField.length = 8 ∧
    (ed.Validate v = none ↔
      (digitVal c : Int) = CalculateCheckDigit ed.RDFIIdentificationField) ∧
    ((digitVal c : Int) ≠ CalculateCheckDigit ed.RDFIIdentificationField →
      ed.Validate v = some
        { FieldName := "RDFIIdentification", Value := ed.CheckDigit,
          Msg := Msg.msgValidCheckDigit (CalculateCheckDigit ed.RDFIIdentificationField) }) := by
  have hv := Validate_of_checks v ed h0 h1 h2 h3 h4 h5 h6
  refine ⟨stringField_length _ _, ?_, ?_⟩
  · rw [Validate_eq_none_iff]
    constructor
    · intro h
      have := (validateCheckDigit_eq_none_iff ed).mp h.2.2.2.2.2.2.2
      rw [hcd, Atoi_digit c hc] at this
      exact Option.some.inj this
    · intro h
      refine ⟨h0, h1, h2, h3, h4, h5, h6, ?_⟩
      rw [validateCheckDigit_eq_none_iff, hcd, Atoi_digit c hc, h]
  · intro hne
    rw [hv]
    unfold EntryDetail.validateCheckDigit
    rw [hcd, Atoi_digit c hc]
    simp only
    rw [if_pos (fun h => hne h.symm)]

/-- C5, at the sample entry, whose check digit 2 is the calculated one. -/
theorem C5_Validate_check_digit_witness :
    sampleEntry.RDFIIdentificationField.length = 8 ∧
    (sampleEntry.Validate sampleValidator = none ↔
      (digitVal '2' : Int) = CalculateCheckDigit sampleEntry.RDFIIdentificationField) ∧
    ((digitVal '2' : Int) ≠ CalculateCheckDigit sampleEntry.RDFIIdentificationField →
      sampleEntry.Validate sampleValidator = some
        { FieldName := "RDFIIdentification", Value := sampleEntry.CheckDigit,
          Msg := Msg.msgValidCheckDigit
            (CalculateCheckDigit sampleEntry.RDFIIdentificationField) }) :=
  C5_Validate_check_digit sampleValidator sampleEntry '2' (by decide) (by decide) (by decide)
    (by decide) (by decide) (by decide) (by decide) (by decide) (by decide)

/-- C6 as stated fails: the check digit of `12104288` is not 9. -/
theorem C6_check_digit_not_nine : CalculateCheckDigit "12104288".toList ≠ 9 := by decide

/-- C6 amended: `CalculateCheckDigit("12104288")` is 2: the weights `[3,7,1,3,7,1,3,7]` applied
to the digits give the products' sum 128, and `(10 - (128 mod 10)) mod 10 = 2`. -/
theorem C6_check_digit_12104288 :
    CalculateCheckDigit "12104288".toList = 2 ∧
    (List.zipWith (· * ·) checkDigitWeights [1, 2, 1, 0, 4, 2, 8, 8]).sum = 128 ∧
    (10 - (128 : Int) % 10) % 10 = 2 := by decide


/-- C7: for every string of 8 decimal digits d1..d8, with S the weighted sum
3*d1 + 7*d2 + d3 + 3*d4 + 7*d5 + d6 + 3*d7 + 7*d8, `CalculateCheckDigit` returns
(10 - (S mod 10)) mod 10, a digit between 0 and 9, and it is the only digit c for which
S + c is a multiple of 10. -/
theorem C7_CalculateCheckDigit_formula (d1 d2 d3 d4 d5 d6 d7 d8 : Nat)
    (h1 : d1 ≤ 9) (h2 : d2 ≤ 9) (h3 : d3 ≤ 9) (h4 : d4 ≤ 9)
    (h5 : d5 ≤ 9) (h6 : d6 ≤ 9) (h7 : d7 ≤ 9) (h8 : d8 ≤ 9)
    (S : Int) (hS : S = 3 * d1 + 7 * d2 + d3 + 3 * d4 + 7 * d5 + d6 + 3 * d7 + 7 * d8) :
    CalculateCheckDigit
        [decimalDigit d1, decimalDigit d2, decimalDigit d3, decimalDigit d4,
         decimalDigit d5, decimalDigit d6, decimalDigit d7, decimalDigit d8]
      = (10 - S % 10) % 10 ∧
    0 ≤ (10 - S % 10) % 10 ∧ (10 - S % 10) % 10 ≤ 9 ∧
    (S + (10 - S % 10) % 10) % 10 = 0 ∧
    ∀ c : Int, 0 ≤ c → c ≤ 9 → (S + c) % 10 = 0 → c = (10 - S % 10) % 10 := by
  have e1 := digitVal_decimalDigit d1 (by omega)
  have e2 := digitVal_decimalDigit d2 (by omega)
  have e3 := digitVal_decimalDigit d3 (by omega)
  have e4 := digitVal_decimalDigit d4 (by omega)
  have e5 := digitVal_decimalDigit d5 (by omega)
  have e6 := digitVal_decimalDigit d6 (by omega)
  have e7 := digitVal_decimalDigit d7 (by omega)
  have e8 := digitVal_decimalDigit d8 (by omega)
  refine ⟨?_, by omega, by omega, by omega, fun c hc0 hc9 hc => by omega⟩
  simp only [CalculateCheckDigit, checkDigitWeights, List.map_cons, List.map_nil,
    isDigit_decimalDigit, if_true, e1, e2, e3, e4, e5, e6, e7, e8, List.zipWith_cons_cons,
    List.zipWith_nil_right, List.sum_cons, List.sum_nil]
  rw [hS]
  push_cast
  omega

/-- C7, at the digits of `12104288`. -/
theorem C7_CalculateCheckDigit_formula_witness :
    CalculateCheckDigit "12104288".toList = (10 - (128 : Int) % 10) % 10 ∧
    0 ≤ (10 - (128 : Int) % 10) % 10 ∧ (10 - (128 : Int) % 10) % 10 ≤ 9 ∧
    ((128 : Int) + (10 - (128 : Int) % 10) % 10) % 10 = 0 ∧
    ∀ c : Int, 0 ≤ c → c ≤ 9 → ((128 : Int) + c) % 10 = 0 → c = (10 - (128 : Int) % 10) % 10 :=
  C7_CalculateCheckDigit_formula 1 2 1 0 4 2 8 8 (by decide) (by decide) (by decide)
    (by decide) (by decide) (by decide) (by decide) (by decide) 128 (by decide)

/-- C8 as stated fails: the entry with TransactionCode 22, RDFIIdentification `1210428` and
CheckDigit `2` validates without error. -/
theorem C8_seven_digit_RDFI_validates :
    shortRDFIEntry.TransactionCode = 22 ∧
    shortRDFIEntry.RDFIIdentification = "1210428".toList ∧
    shortRDFIEntry.Validate sampleValidator = none := by decide

/-- C8 amended: for every EntryDetail with TransactionCode 22 and RDFIIdentification
`1210428` the length of the identification is not checked: it passes field inclusion as a
non-empty value, the check digit is calculated over the zero-padded `01210428` and is 2, and
`Validate` returns no error exactly when the other checks pass and CheckDigit reads as 2. -/
theorem C8_Validate_seven_digit_RDFI (v : validator) (ed : EntryDetail)
    (htc : ed.TransactionCode = 22) (hrdfi : ed.RDFIIdentification = "1210428".toList) :
    ed.RDFIIdentificationField = "01210428".toList ∧
    CalculateCheckDigit ed.RDFIIdentificationField = 2 ∧
    (ed.Validate v = none ↔
      ed.recordType = "6".toList ∧ ed.DFIAccountNumber ≠ [] ∧ ed.IndividualName ≠ [] ∧
      ed.TraceNumber ≠ 0 ∧ isTransactionCode v 22 = none ∧
      isAlphanumeric v ed.DFIAccountNumber = none ∧
      isAlphanumeric v ed.IdentificationNumber = none ∧
      isAlphanumeric v ed.IndividualName = none ∧
      isAlphanumeric v ed.DiscretionaryData = none ∧
      Atoi ed.CheckDigit = some 2) := by
  have hf : ed.RDFIIdentificationField = "01210428".toList := by
    unfold EntryDetail.RDFIIdentificationField
    rw [hrdfi]; decide
  have hcalc : CalculateCheckDigit ed.RDFIIdentificationField = 2 := by
    rw [hf]; decide
  refine ⟨hf, hcalc, ?_⟩
  rw [Validate_eq_none_iff, fieldInclusion_eq_none_iff, validateCheckDigit_eq_none_iff, hcalc,
    htc, hrdfi]
  constructor
  · rintro ⟨⟨-, -, -, a4, a5, a6⟩, b1, b2, b3, b4, b5, b6, b7⟩
    exact ⟨b1, a4, a5, a6, b2, b3, b4, b5, b6, b7⟩
  · rintro ⟨b1, a4, a5, a6, b2, b3, b4, b5, b6, b7⟩
    refine ⟨⟨?_, by decide, by decide, a4, a5, a6⟩, b1, b2, b3, b4, b5, b6, b7⟩
    rw [b1]; decide

/-- C8 amended, at the sample entry with the seven-digit identification. -/
theorem C8_Validate_seven_digit_RDFI_witness :
    shortRDFIEntry.RDFIIdentificationField = "01210428".toList ∧
    CalculateCheckDigit shortRDFIEntry.RDFIIdentificationField = 2 ∧
    (shortRDFIEntry.Validate sampleValidator = none ↔
      shortRDFIEntry.recordType = "6".toList ∧ shortRDFIEntry.DFIAccountNumber ≠ [] ∧
      shortRDFIEntry.IndividualName ≠ [] ∧ shortRDFIEntry.TraceNumber ≠ 0 ∧
      isTransactionCode sampleValidator 22 = none ∧
      isAlphanumeric sampleValidator shortRDFIEntry.DFIAccountNumber = none ∧
      isAlphanumeric sampleValidator shortRDFIEntry.IdentificationNumber = none ∧
      isAlphanumeric sampleValidator shortRDFIEntry.IndividualName = none ∧
      isAlphanumeric sampleValidator shortRDFIEntry.DiscretionaryData = none ∧
      Atoi shortRDFIEntry.CheckDigit = some 2) :=
  C8_Validate_seven_digit_RDFI sampleValidator shortRDFIEntry (by decide) (by decide)

/-- C9: whatever addenda the entry holds, `AddAddenda` of an Addenda99 leaves the list equal
to that one record, Category Return and AddendaRecordIndicator 1; of an Addenda98 the list is
that one record and Category is NOC; of an Addenda02 the list is that one record and Category
is Forward.  The returned slice is the new list. -/
theorem C9_AddAddenda_replaces (ed : EntryDetail) (r : Str) :
    ((ed.AddAddenda (Addendumer.Addenda99 r)).1.Addendum = [Addendumer.Addenda99 r] ∧
      (ed.AddAddenda (Addendumer.Addenda99 r)).1.Category = CategoryReturn ∧
      (ed.AddAddenda (Addendumer.Addenda99 r)).1.AddendaRecordIndicator = 1 ∧
      (ed.AddAddenda (Addendumer.Addenda99 r)).2 = [Addendumer.Addenda99 r]) ∧
    ((ed.AddAddenda (Addendumer.Addenda98 r)).1.Addendum = [Addendumer.Addenda98 r] ∧
      (ed.AddAddenda (Addendumer.Addenda98 r)).1.Category = CategoryNOC ∧
      (ed.AddAddenda (Addendumer.Addenda98 r)).1.AddendaRecordIndicator = 1 ∧
      (ed.AddAddenda (Addendumer.Addenda98 r)).2 = [Addendumer.Addenda98 r]) ∧
    ((ed.AddAddenda (Addendumer.Addenda02 r)).1.Addendum = [Addendumer.Addenda02 r] ∧
      (ed.AddAddenda (Addendumer.Addenda02 r)).1.Category = CategoryForward ∧
      (ed.AddAddenda (Addendumer.Addenda02 r)).1.AddendaRecordIndicator = 1 ∧
      (ed.AddAddenda (Addendumer.Addenda02 r)).2 = [Addendumer.Addenda02 r]) := by
  simp [EntryDetail.AddAddenda]

/-- C10: for an addenda that is not an Addenda99, Addenda98 or Addenda02, `AddAddenda` leaves
the Addendum list equal to the former list followed by the addenda, the former elements in
their order, sets Category to Forward and AddendaRecordIndicator to 1, changes no other
field, and returns the new list. -/
theorem C10_AddAddenda_appends (ed : EntryDetail) (a : Addendumer)
    (h99 : ∀ r, a ≠ Addendumer.Addenda99 r) (h98 : ∀ r, a ≠ Addendumer.Addenda98 r)
    (h02 : ∀ r, a ≠ Addendumer.Addenda02 r) :
    ed.AddAddenda a =
      ({ ed with AddendaRecordIndicator := 1, Category := CategoryForward,
                 Addendum := ed.Addendum ++ [a] },
       ed.Addendum ++ [a]) := by
  cases a with
  | Addenda02 r => exact absurd rfl (h02 r)
  | Addenda98 r => exact absurd rfl (h98 r)
  | Addenda99 r => exact absurd rfl (h99 r)
  | Addenda05 r => rfl
  | Addenda17 r => rfl
  | Addenda18 r => rfl

/-- C10, at an entry that holds an Addenda17 numbered 2 and an Addenda05 and receives an
Addenda17 numbered 1: the new record goes last. -/
theorem C10_AddAddenda_appends_witness :
    ({ sampleEntry with
        Addendum := [sampleAddenda17 2, Addendumer.Addenda05 []] }.AddAddenda
          (sampleAddenda17 1)) =
      ({ sampleEntry with
          AddendaRecordIndicator := 1, Category := CategoryForward,
          Addendum := [sampleAddenda17 2, Addendumer.Addenda05 [], sampleAddenda17 1] },
       [sampleAddenda17 2, Addendumer.Addenda05 [], sampleAddenda17 1]) :=
  C10_AddAddenda_appends _ (sampleAddenda17 1) (fun r h => by cases h) (fun r h => by cases h)
    (fun r h => by cases h)

/-- C11, at the calls AddAddenda(Addenda99) then AddAddenda(Addenda05) on a new entry: the
Addendum list holds the Addenda99 followed by the Addenda05. -/
theorem C11_return_then_payment_addenda :
    (NewEntryDetail.calls
        [EntryCall.AddAddenda (Addendumer.Addenda99 []),
         EntryCall.AddAddenda (Addendumer.Addenda05 [])]).map EntryDetail.Addendum
      = some [Addendumer.Addenda99 [], Addendumer.Addenda05 []] := by decide

/-- C12 as stated fails: after `Parse` of the sample line on a new entry the
AddendaRecordIndicator is 1 and the Addendum list is empty. -/
theorem C12_Parse_sets_indicator_alone :
    (NewEntryDetail.calls [EntryCall.Parse sampleLine]).map
        (fun e => (e.AddendaRecordIndicator, e.Addendum))
      = some (1, []) := by decide

/-- C12 amended: every EntryDetail reached from NewEntryDetail() by a sequence of Parse and
AddAddenda calls that is empty or ends with an AddAddenda call (any sequence of AddAddenda
calls is one) has AddendaRecordIndicator = 1 if and only if its Addendum list is
non-empty. -/
theorem C12_indicator_after_AddAddenda (cs : List EntryCall) (ed : EntryDetail)
    (hreach : NewEntryDetail.calls cs = some ed)
    (hlast : cs = [] ∨ ∃ a, cs.getLast? = some (EntryCall.AddAddenda a)) :
    ed.AddendaRecordIndicator = 1 ↔ ed.Addendum ≠ [] := by
  rcases hlast with h | ⟨a, ha⟩
  · subst h
    simp only [EntryDetail.calls, Option.some.injEq] at hreach
    subst hreach
    decide
  · obtain ⟨init, hinit⟩ : ∃ init, cs = init ++ [EntryCall.AddAddenda a] := by
      rcases List.eq_nil_or_concat cs with h | ⟨init, c, h⟩
      · subst h; simp at ha
      · rw [List.concat_eq_append] at h
        subst h
        rw [List.getLast?_concat] at ha
        exact ⟨init, by rw [Option.some.inj ha]⟩
    subst hinit
    rw [calls_append] at hreach
    cases hprev : NewEntryDetail.calls init with
    | none => rw [hprev] at hreach; simp at hreach
    | some e =>
      rw [hprev] at hreach
      simp only [Option.some_bind, EntryDetail.call, Option.some.injEq] at hreach
      subst hreach
      have := AddAddenda_indicator e a
      exact ⟨fun _ => this.2, fun _ => this.1⟩

/-- C12 amended, at a new entry after Parse of the sample line and AddAddenda of an
Addenda17. -/
theorem C12_indicator_after_AddAddenda_witness :
    ∃ ed, NewEntryDetail.calls
        [EntryCall.Parse sampleLine, EntryCall.AddAddenda (sampleAddenda17 1)] = some ed ∧
      (ed.AddendaRecordIndicator = 1 ↔ ed.Addendum ≠ []) :=
  ⟨_, rfl,
    C12_indicator_after_AddAddenda
      [EntryCall.Parse sampleLine, EntryCall.AddAddenda (sampleAddenda17 1)] _ rfl
      (Or.inr ⟨sampleAddenda17 1, rfl⟩)⟩

/-- C13: for every File, Validate returns no error if and only if Control.BatchCount is the
number of batches and Control.EntryAddendaCount, Control.TotalDebitEntryDollarAmountInFile
and Control.TotalCreditEntryDollarAmountInFile are the sums over the batches of the batch
Control's EntryAddendaCount, TotalDebitEntryDollarAmount and
TotalCreditEntryDollarAmount. -/
theorem C13_File_Validate_iff_balanced (f : File) :
    f.Validate = none ↔
      f.Control.BatchCount = (f.Batches.length : Int) ∧
      f.Control.EntryAddendaCount =
        (f.Batches.map (fun b => b.Control.EntryAddendaCount)).sum ∧
      f.Control.TotalDebitEntryDollarAmountInFile =
        (f.Batches.map (fun b => b.Control.TotalDebitEntryDollarAmount)).sum ∧
      f.Control.TotalCreditEntryDollarAmountInFile =
        (f.Batches.map (fun b => b.Control.TotalCreditEntryDollarAmount)).sum :=
  File_Validate_eq_none_iff f

/-- C14 as stated fails: the File with zero batches, Control.BatchCount 1 and
Control.EntryAddendaCount 5 fails with ErrFileBatchCount, and after addBatch of the batch
with all-zero control totals it fails with ErrFileEntryCount. -/
theorem C14_scenario_entry_count_mismatch :
    unbalancedEmptyFile.Batches = [] ∧ unbalancedEmptyFile.Control.BatchCount = 1 ∧
    unbalancedEmptyFile.Validate = some FileErr.ErrFileBatchCount ∧
    Batch.zero.Control = { EntryAddendaCount := 0, TotalDebitEntryDollarAmount := 0,
                           TotalCreditEntryDollarAmount := 0 } ∧
    (unbalancedEmptyFile.addBatch Batch.zero).Validate = some FileErr.ErrFileEntryCount := by
  decide

/-- C14 amended: for every File, Validate returns the named error of the first balancing
check that fails, in the order batch count, entry/addenda count, total debit, total credit.
A File with zero batches and Control.BatchCount = 1 fails with ErrFileBatchCount, and when
its Control.EntryAddendaCount and its two total amounts are zero (the file of a new reader),
after addBatch of one batch with all-zero control totals it validates without error. -/
theorem C14_File_Validate_first_error (f : File) :
    (f.Control.BatchCount ≠ (f.Batches.length : Int) →
      f.Validate = some FileErr.ErrFileBatchCount) ∧
    (f.Control.BatchCount = (f.Batches.length : Int) →
      f.Control.EntryAddendaCount ≠
        (f.Batches.map (fun b => b.Control.EntryAddendaCount)).sum →
      f.Validate = some FileErr.ErrFileEntryCount) ∧
    (f.Control.BatchCount = (f.Batches.length : Int) →
      f.Control.EntryAddendaCount =
        (f.Batches.map (fun b => b.Control.EntryAddendaCount)).sum →
      f.Control.TotalDebitEntryDollarAmountInFile ≠
        (f.Batches.map (fun b => b.Control.TotalDebitEntryDollarAmount)).sum →
      f.Validate = some FileErr.ErrFileDebitAmount) ∧
    (f.Control.BatchCount = (f.Batches.length : Int) →
      f.Control.EntryAddendaCount =
        (f.Batches.map (fun b => b.Control.EntryAddendaCount)).sum →
      f.Control.TotalDebitEntryDollarAmountInFile =
        (f.Batches.map (fun b => b.Control.TotalDebitEntryDollarAmount)).sum →
      f.Control.TotalCreditEntryDollarAmountInFile ≠
        (f.Batches.map (fun b => b.Control.TotalCreditEntryDollarAmount)).sum →
      f.Validate = some FileErr.ErrFileCreditAmount) ∧
    (f.Batches = [] → f.Control.BatchCount = 1 →
      f.Validate = some FileErr.ErrFileBatchCount ∧
      ∀ b : Batch, b.Control = Batch.zero.Control →
        f.Control.EntryAddendaCount = 0 →
        f.Control.TotalDebitEntryDollarAmountInFile = 0 →
        f.Control.TotalCreditEntryDollarAmountInFile = 0 →
        (f.addBatch b).Validate = none) := by
  refine ⟨?_, ?_, ?_, ?_, ?_⟩
  · intro h1
    unfold File.Validate
    rw [if_pos h1]
  · intro h1 h2
    unfold File.Validate
    rw [if_neg (not_not.mpr h1), if_pos h2]
  · intro h1 h2 h3
    unfold File.Validate
    rw [if_neg (not_not.mpr h1), if_neg (not_not.mpr h2), if_pos h3]
  · intro h1 h2 h3 h4
    unfold File.Validate
    rw [if_neg (not_not.mpr h1), if_neg (not_not.mpr h2), if_neg (not_not.mpr h3), if_pos h4]
  · intro hb hc
    constructor
    · unfold File.Validate
      rw [if_pos (by rw [hb, hc]; decide)]
    · intro b hz h2 h3 h4
      rw [File_Validate_eq_none_iff]
      simp only [File.addBatch, hb, List.nil_append, List.length_singleton, List.map_cons,
        List.map_nil, List.sum_cons, List.sum_nil, hz, Batch.zero, hc, h2, h3, h4]
      decide

/-- C14, at the file of a new reader with Control.BatchCount set to 1: it fails with
ErrFileBatchCount, and validates after addBatch of the zero batch. -/
theorem C14_File_Validate_first_error_witness :
    ({ File.zero with Control := { File.zero.Control with BatchCount := 1 } } : File).Validate
      = some FileErr.ErrFileBatchCount ∧
    (({ File.zero with Control := { File.zero.Control with BatchCount := 1 } } : File).addBatch
      Batch.zero).Validate = none :=
  ⟨((C14_File_Validate_first_error
      { File.zero with Control := { File.zero.Control with BatchCount := 1 } }).2.2.2.2
      rfl rfl).1,
   ((C14_File_Validate_first_error
      { File.zero with Control := { File.zero.Control with BatchCount := 1 } }).2.2.2.2
      rfl rfl).2 Batch.zero rfl rfl rfl rfl⟩

/-- C15 as stated fails: the Addenda17 with SequenceNumber 10000 validates, and parsing its
String gives the SequenceNumber 0. -/
theorem C15_overlong_sequence_not_recovered :
    overlongSequenceAddenda.Validate sampleValidator = none ∧
    overlongSequenceAddenda.SequenceNumber = 10000 ∧
    (NewAddenda17.Parse overlongSequenceAddenda.String).map Addenda17.SequenceNumber
      = some 0 := by
  decide

/-- C15 amended: for every Addenda17 on which Validate returns no error and whose values fit
their fields on the line (0 <= SequenceNumber < 10^4, 0 <= EntryDetailSequenceNumber < 10^7,
PaymentRelatedInformation of at most 80 ASCII characters that is a text `t` without white
space at its start or end, followed by spaces only), parsing its String into a new Addenda17
gives the same typeCode, SequenceNumber and EntryDetailSequenceNumber, and the
PaymentRelatedInformation `t`. -/
theorem C15_Addenda17_round_trip (v : validator) (a : Addenda17) (t : Str) (j : Nat)
    (hvalid : a.Validate v = none)
    (hseq : 0 ≤ a.SequenceNumber ∧ a.SequenceNumber < 10 ^ 4)
    (hentry : 0 ≤ a.EntryDetailSequenceNumber ∧ a.EntryDetailSequenceNumber < 10 ^ 7)
    (hlen : a.PaymentRelatedInformation.length ≤ 80)
    (hinfo : a.PaymentRelatedInformation = t ++ List.replicate j ' ')
    (hascii : ∀ c ∈ t, c.toNat < 128)
    (hhead : ∀ c, t.head? = some c → asciiSpace c = false)
    (hlast : ∀ c, t.getLast? = some c → asciiSpace c = false) :
    NewAddenda17.Parse a.String = some { NewAddenda17 with
      recordType := a.recordType
      typeCode := a.typeCode
      PaymentRelatedInformation := t
      SequenceNumber := a.SequenceNumber
      EntryDetailSequenceNumber := a.EntryDetailSequenceNumber } := by
  obtain ⟨-, hrt, -, htc, -⟩ := (Addenda17_Validate_eq_none_iff v a).mp hvalid
  simp only [Addenda17.String, Addenda17.PaymentRelatedInformationField,
    Addenda17.SequenceNumberField, Addenda17.EntryDetailSequenceNumberField]
  rw [Addenda17_Parse_of_chunks NewAddenda17 _ _ _ _ _ (by rw [hrt]; rfl) (by rw [htc]; rfl)
    (alphaField_length _ _) (numericField_length _ _) (numericField_length _ _)]
  rw [parseNumField_numericField a.SequenceNumber 3 hseq.1 (by simpa using hseq.2),
    parseNumField_numericField a.EntryDetailSequenceNumber 6 hentry.1
      (by simpa using hentry.2),
    alphaField_of_le _ _ hlen]
  have hpad : a.PaymentRelatedInformation ++
      List.replicate (80 - a.PaymentRelatedInformation.length) ' '
      = t ++ List.replicate (j + (80 - a.PaymentRelatedInformation.length)) ' ' := by
    generalize 80 - a.PaymentRelatedInformation.length = k
    rw [hinfo, List.append_assoc, List.append_replicate_replicate]
  rw [hpad, TrimSpace_padded t _ hascii hhead hlast, hrt]

/-- C15 amended, at the sample Addenda17. -/
theorem C15_Addenda17_round_trip_witness :
    sampleIATAddenda.Validate sampleValidator = none ∧
    NewAddenda17.Parse sampleIATAddenda.String = some sampleIATAddenda :=
  ⟨by decide,
    (C15_Addenda17_round_trip sampleValidator sampleIATAddenda "INVOICE 42".toList 0
      (by decide) (by decide) (by decide) (by decide) (by decide) (by decide) (by decide)
      (by decide)).trans (by decide)⟩

/-- C16: for every Addenda17 obtained from NewAddenda17() by setting
PaymentRelatedInformation to an ASCII string and SequenceNumber and EntryDetailSequenceNumber
to non-negative integers, String returns 94 characters: "7", "17", the payment information in
80 characters (left-justified and space-padded when it fits, cut to 80 otherwise), the
sequence number in 4 characters and the entry-detail sequence number in 7 characters
(zero-padded decimal renderings when they fit), in that order. -/
theorem C16_Addenda17_String_layout (info : Str) (seq entrySeq : Int)
    (_hascii : ∀ c ∈ info, c.toNat < 128) (hseq : 0 ≤ seq) (hentry : 0 ≤ entrySeq) :
    ({ NewAddenda17 with
        PaymentRelatedInformation := info, SequenceNumber := seq,
        EntryDetailSequenceNumber := entrySeq } : Addenda17).String
      = "7".toList ++ "17".toList ++ alphaField info 80 ++ numericField seq 4 ++
          numericField entrySeq 7 ∧
    ({ NewAddenda17 with
        PaymentRelatedInformation := info, SequenceNumber := seq,
        EntryDetailSequenceNumber := entrySeq } : Addenda17).String.length = 94 ∧
    (alphaField info 80).length = 80 ∧ (numericField seq 4).length = 4 ∧
    (numericField entrySeq 7).length = 7 ∧
    (info.length ≤ 80 → alphaField info 80 = info ++ List.replicate (80 - info.length) ' ') ∧
    (80 < info.length → alphaField info 80 = info.take 80) ∧
    (seq < 10 ^ 4 →
      numericField seq 4 = List.replicate (4 - (Itoa seq).length) '0' ++ Itoa seq) ∧
    (entrySeq < 10 ^ 7 →
      numericField entrySeq 7 = List.replicate (7 - (Itoa entrySeq).length) '0' ++
        Itoa entrySeq) := by
  refine ⟨rfl, ?_, alphaField_length _ _, numericField_length _ _, numericField_length _ _,
    alphaField_of_le _ _, ?_, ?_, ?_⟩
  · simp only [Addenda17.String, Addenda17.PaymentRelatedInformationField,
      Addenda17.SequenceNumberField, Addenda17.EntryDetailSequenceNumberField, NewAddenda17,
      List.length_append, alphaField_length, numericField_length]
    rfl
  · intro h
    unfold alphaField
    rw [if_pos h]
  · intro h
    rw [numericField_nonneg seq 3 hseq (by simpa using h), Itoa_nonneg seq hseq]
  · intro h
    rw [numericField_nonneg entrySeq 6 hentry (by simpa using h), Itoa_nonneg entrySeq hentry]

/-- C16, at the sample Addenda17, whose String is the sample addenda line. -/
theorem C16_Addenda17_String_layout_witness :
    sampleIATAddenda.String = sampleAddendaLine ∧ sampleIATAddenda.String.length = 94 :=
  ⟨(C16_Addenda17_String_layout "INVOICE 42".toList 1 1 (by decide) (by decide)
      (by decide)).1.trans (by decide),
   (C16_Addenda17_String_layout "INVOICE 42".toList 1 1 (by decide) (by decide)
      (by decide)).2.1⟩

/-- C17: for every line of at least 94 characters `Parse` completes and sets recordType to
"7", typeCode to line[1:3], PaymentRelatedInformation to line[3:83] without its surrounding
white space, SequenceNumber to the number in line[83:87] and EntryDetailSequenceNumber to the
number in line[87:94]; ID is left as it was.  On a run of decimal digits `parseNumField` is
the number the digits write. -/
theorem C17_Addenda17_Parse_field_ranges (a : Addenda17) (line : Str)
    (h : 94 ≤ line.length) :
    a.Parse line = some { a with
      recordType := "7".toList
      typeCode := (line.drop 1).take 2
      PaymentRelatedInformation := TrimSpace ((line.drop 3).take 80)
      SequenceNumber := parseNumField ((line.drop 83).take 4)
      EntryDetailSequenceNumber := parseNumField ((line.drop 87).take 7) } ∧
    ∀ s : Str, isDigitRun s = true → parseNumField s = (decimalValue s : Int) :=
  ⟨Addenda17_Parse_of_length a line h, parseNumField_digits⟩

/-- C17, at the sample addenda line. -/
theorem C17_Addenda17_Parse_field_ranges_witness :
    94 ≤ sampleAddendaLine.length ∧
    NewAddenda17.Parse sampleAddendaLine = some { NewAddenda17 with
      typeCode := "17".toList
      PaymentRelatedInformation := "INVOICE 42".toList
      SequenceNumber := 1
      EntryDetailSequenceNumber := 1 } :=
  ⟨by decide,
    (C17_Addenda17_Parse_field_ranges NewAddenda17 sampleAddendaLine (by decide)).1.trans
      (by decide)⟩

/-- C18: for every width w and every non-negative integer n whose decimal rendering has at
most w digits, numericField(n, w) has w characters, the rendering zero-padded on the left,
and parseNumField reads it back as n; for every ASCII string s of at most w characters that
does not end in a space, alphaField(s, w) has w characters, s space-padded on the right, and
parseStringField reads it back as s.  alphaField("AB", 5) is "AB   " and numericField(42, 7)
is "0000042". -/
theorem C18_field_round_trips (w : Nat) :
    (∀ n : Int, 0 ≤ n → (Itoa n).length ≤ w →
      (numericField n w).length = w ∧
      numericField n w = List.replicate (w - (Itoa n).length) '0' ++ Itoa n ∧
      parseNumField (numericField n w) = n) ∧
    (∀ s : Str, (∀ c ∈ s, c.toNat < 128) → s.length ≤ w → s.getLast? ≠ some ' ' →
      (alphaField s w).length = w ∧
      alphaField s w = s ++ List.replicate (w - s.length) ' ' ∧
      parseStringField (alphaField s w) = s) ∧
    alphaField "AB".toList 5 = "AB   ".toList ∧
    numericField 42 7 = "0000042".toList := by
  refine ⟨?_, ?_, by decide, by decide⟩
  · intro n h0 hlen
    refine ⟨numericField_length n w, numericField_of_le n w hlen, ?_⟩
    rw [numericField_of_le n w hlen]
    exact parseNumField_zeros_Itoa _ n h0
  · intro s _ hlen hlast
    refine ⟨alphaField_length s w, alphaField_of_le s w hlen, ?_⟩
    rw [alphaField_of_le s w hlen]
    exact parseStringField_padded s _ hlast

/-- C18, at numericField(42, 7) and alphaField("AB", 5): parsing the fields back recovers 42
and "AB". -/
theorem C18_field_round_trips_witness :
    parseNumField (numericField 42 7) = 42 ∧
    parseStringField (alphaField "AB".toList 5) = "AB".toList :=
  ⟨((C18_field_round_trips 7).1 42 (by decide) (by decide)).2.2,
   ((C18_field_round_trips 5).2.1 "AB".toList (by decide) (by decide) (by decide)).2.2⟩

/-- C19: for every string r of exactly 9 decimal digits, SetRDFI(r) sets RDFIIdentification
to the first 8 digits of r and CheckDigit to the ninth digit, leaves every other field
unchanged and returns that entry. -/
theorem C19_SetRDFI_nine_digits (ed : EntryDetail) (r : Str) (hlen : r.length = 9)
    (hdigits : ∀ c ∈ r, c.isDigit = true) :
    ed.SetRDFI r = some { ed with RDFIIdentification := r.take 8, CheckDigit := r.drop 8 } := by
  have hs : stringField r 9 = r := stringField_of_length r 9 hlen
  have h8 : ∀ c ∈ r.take 8, c.isDigit = true := fun c hc => hdigits c (List.mem_of_mem_take hc)
  have h9 : ∀ c ∈ r.drop 8, c.isDigit = true := fun c hc => hdigits c (List.mem_of_mem_drop hc)
  have hd : (r.drop 8).take 1 = r.drop 8 :=
    List.take_of_length_le (by simp only [List.length_drop]; omega)
  simp only [EntryDetail.SetRDFI, hs]
  rw [slice_of_le r 0 8 (by omega) (by omega), slice_of_le r 8 9 (by omega) (by omega)]
  simp only [List.drop_zero, Nat.sub_zero, Nat.reduceSub, hd, Option.pure_def,
    Option.bind_eq_bind, Option.some_bind]
  rw [parseStringField_digits _ h8, parseStringField_digits _ h9]

/-- C19, at the routing number 121042882. -/
theorem C19_SetRDFI_nine_digits_witness :
    NewEntryDetail.SetRDFI "121042882".toList =
      some { NewEntryDetail with
        RDFIIdentification := "12104288".toList, CheckDigit := "2".toList } :=
  (C19_SetRDFI_nine_digits NewEntryDetail "121042882".toList (by decide) (by decide)).trans
    (by decide)

/-- C20: for every string o of exactly 8 decimal digits and every integer seq with
0 <= seq <= 9999999, SetTraceNumber(o, seq) sets TraceNumber to value(o) * 10^7 + seq and
changes no other field, so that TraceNumber mod 10^7 = seq. -/
theorem C20_SetTraceNumber_value (ed : EntryDetail) (o : Str) (seq : Int)
    (hlen : o.length = 8) (hdigits : ∀ c ∈ o, c.isDigit = true)
    (h0 : 0 ≤ seq) (h1 : seq ≤ 9999999) :
    ed.SetTraceNumber o seq =
      { ed with TraceNumber := (decimalValue o : Int) * 10 ^ 7 + seq } ∧
    (ed.SetTraceNumber o seq).TraceNumber % 10 ^ 7 = seq := by
  have hs : stringField o 8 = o := stringField_of_length o 8 hlen
  have hne : o ≠ [] := by
    intro h; rw [h] at hlen; simp at hlen
  have hnum := numericField_nonneg seq 6 h0 (by norm_num; omega)
  have hnlen : (numericField seq 7).length = 7 := numericField_length seq 7
  have hrun : isDigitRun (o ++ numericField seq 7) = true := by
    rw [isDigitRun_iff]
    refine ⟨by simp [hne], ?_⟩
    intro c hc
    rcases List.mem_append.mp hc with hc | hc
    · exact hdigits c hc
    · rw [hnum] at hc
      rcases List.mem_append.mp hc with hc | hc
      · rw [List.eq_of_mem_replicate hc]; rfl
      · exact uitoa_all_isDigit _ c hc
  have hval : decimalValue (numericField seq 7) = seq.toNat := by
    rw [hnum, decimalValue_zeros, decimalValue_uitoa]
  have htrace : parseNumField (stringField o 8 ++ numericField seq 7)
      = (decimalValue o : Int) * 10 ^ 7 + seq := by
    rw [hs, parseNumField_digits _ hrun, decimalValue_append_run, hnlen, hval]
    push_cast
    rw [Int.toNat_of_nonneg h0]
  constructor
  · simp only [EntryDetail.SetTraceNumber, htrace]
  · simp only [EntryDetail.SetTraceNumber, htrace]
    have : (0 : Int) ≤ (decimalValue o : Int) := Int.natCast_nonneg _
    omega

/-- C20, at the ODFI identification 12104288 and the sequence number 1. -/
theorem C20_SetTraceNumber_value_witness :
    (NewEntryDetail.SetTraceNumber "12104288".toList 1).TraceNumber = 121042880000001 ∧
    (NewEntryDetail.SetTraceNumber "12104288".toList 1).TraceNumber % 10 ^ 7 = 1 :=
  ⟨(congrArg EntryDetail.TraceNumber
      (C20_SetTraceNumber_value NewEntryDetail "12104288".toList 1 (by decide) (by decide)
        (by decide) (by decide)).1).trans (by decide),
   (C20_SetTraceNumber_value NewEntryDetail "12104288".toList 1 (by decide) (by decide)
      (by decide) (by decide)).2⟩

/-- C21: for every EntryDetail whose TransactionCode is between 10 and 99, CreditOrDebit
returns "C" when the second decimal digit of TransactionCode is 1, 2, 3 or 4, "D" when it is
5, 6, 7, 8 or 9, and "" when it is 0; the codes 22, 23, 32, 33 give "C" and 27, 28, 37, 38
give "D". -/
theorem C21_CreditOrDebit_second_digit (ed : EntryDetail)
    (h1 : 10 ≤ ed.TransactionCode) (h2 : ed.TransactionCode ≤ 99) :
    (1 ≤ ed.TransactionCode % 10 ∧ ed.TransactionCode % 10 ≤ 4 →
      ed.CreditOrDebit = some "C".toList) ∧
    (5 ≤ ed.TransactionCode % 10 ∧ ed.TransactionCode % 10 ≤ 9 →
      ed.CreditOrDebit = some "D".toList) ∧
    (ed.TransactionCode % 10 = 0 → ed.CreditOrDebit = some "".toList) ∧
    (ed.TransactionCode ∈ [22, 23, 32, 33] → ed.CreditOrDebit = some "C".toList) ∧
    (ed.TransactionCode ∈ [27, 28, 37, 38] → ed.CreditOrDebit = some "D".toList) := by
  have hd : (ed.TransactionCode % 10).toNat < 10 := by omega
  have hmod : ed.TransactionCode % 10 = ((ed.TransactionCode % 10).toNat : Int) := by omega
  have key := CreditOrDebit_two_digits ed _ hd h1 h2 hmod
  have hC : 1 ≤ ed.TransactionCode % 10 ∧ ed.TransactionCode % 10 ≤ 4 →
      ed.CreditOrDebit = some "C".toList := by
    intro h
    rw [key, if_pos (by omega)]
  have hD : 5 ≤ ed.TransactionCode % 10 ∧ ed.TransactionCode % 10 ≤ 9 →
      ed.CreditOrDebit = some "D".toList := by
    intro h
    rw [key, if_neg (by omega), if_pos (by omega)]
  refine ⟨hC, hD, ?_, ?_, ?_⟩
  · intro h
    rw [key, if_neg (by omega), if_neg (by omega)]
    rfl
  · intro h
    simp only [List.mem_cons, List.mem_singleton, List.not_mem_nil, or_false] at h
    exact hC (by omega)
  · intro h
    simp only [List.mem_cons, List.mem_singleton, List.not_mem_nil, or_false] at h
    exact hD (by omega)

/-- C21, at the sample entry, whose TransactionCode is 22. -/
theorem C21_CreditOrDebit_second_digit_witness :
    sampleEntry.TransactionCode = 22 ∧ sampleEntry.CreditOrDebit = some "C".toList :=
  ⟨by decide,
    (C21_CreditOrDebit_second_digit sampleEntry (by decide) (by decide)).1 (by decide)⟩

/-- C22: for every string t, after SetPaymentType(t) DiscretionaryData is "R" when t with
its surrounding white space removed and upper-cased equals "R" (for an ASCII t: when t
without its surrounding white space is "R" or "r"), and "S" for every other t, no other field
changing; PaymentTypeField() returns "R" or "S", stores that value in DiscretionaryData, and
a second call returns the same value and leaves the entry as it is. -/
theorem C22_SetPaymentType_R_or_S (unicodeUpper : Str → Str) (ed : EntryDetail) (t : Str) :
    (ToUpper unicodeUpper (TrimSpace t) = "R".toList →
      ed.SetPaymentType unicodeUpper t = { ed with DiscretionaryData := "R".toList }) ∧
    (ToUpper unicodeUpper (TrimSpace t) ≠ "R".toList →
      ed.SetPaymentType unicodeUpper t = { ed with DiscretionaryData := "S".toList }) ∧
    ((∀ c ∈ t, c.toNat < 128) →
      (ToUpper unicodeUpper (TrimSpace t) = "R".toList ↔
        TrimSpace t = "R".toList ∨ TrimSpace t = "r".toList)) ∧
    ((ed.PaymentTypeField unicodeUpper).2 = "R".toList ∨
      (ed.PaymentTypeField unicodeUpper).2 = "S".toList) ∧
    (ed.PaymentTypeField unicodeUpper).1 =
      { ed with DiscretionaryData := (ed.PaymentTypeField unicodeUpper).2 } ∧
    (ed.PaymentTypeField unicodeUpper).1.PaymentTypeField unicodeUpper =
      ed.PaymentTypeField unicodeUpper := by
  refine ⟨?_, ?_, ?_, ?_, ?_, ?_⟩
  · intro h
    unfold EntryDetail.SetPaymentType
    simp only [h, if_true]
  · intro h
    unfold EntryDetail.SetPaymentType
    simp only [h, if_false]
  · intro h
    exact ToUpper_eq_R_iff unicodeUpper _ (TrimSpace_subset_ascii t h)
  · unfold EntryDetail.PaymentTypeField
    rcases SetPaymentType_cases unicodeUpper ed ed.DiscretionaryData with h | h
    · left; simp only [h]
    · right; simp only [h]
  · unfold EntryDetail.PaymentTypeField
    rcases SetPaymentType_cases unicodeUpper ed ed.DiscretionaryData with h | h
    · simp only [h]
    · simp only [h]
  · unfold EntryDetail.PaymentTypeField
    rcases SetPaymentType_cases unicodeUpper ed ed.DiscretionaryData with h | h
    · simp only [h, SetPaymentType_R]
    · simp only [h, SetPaymentType_S]

/-- C22, at the sample entry and the string " r ". -/
theorem C22_SetPaymentType_R_or_S_witness :
    ToUpper id (TrimSpace " r ".toList) = "R".toList ∧
    sampleEntry.SetPaymentType id " r ".toList =
      { sampleEntry with DiscretionaryData := "R".toList } :=
  ⟨by decide, (C22_SetPaymentType_R_or_S id sampleEntry " r ".toList).1 (by decide)⟩

/-- C23: for every EntryDetail in which one of recordType, TransactionCode,
RDFIIdentification, DFIAccountNumber, IndividualName, TraceNumber holds its zero value,
Validate returns the field-inclusion FieldError naming the first such field in that order,
whatever the other checks would say.  Amount, CheckDigit, IdentificationNumber and
DiscretionaryData are not mandatory: field inclusion does not read them, and when the six
mandatory fields are set no error of Validate is a field-inclusion error. -/
theorem C23_Validate_field_inclusion_first (v : validator) (ed : EntryDetail) :
    (ed.recordType = [] →
      ed.Validate v = some
        { FieldName := "recordType", Value := ed.recordType, Msg := Msg.msgFieldInclusion }) ∧
    (ed.recordType ≠ [] → ed.TransactionCode = 0 →
      ed.Validate v = some
        { FieldName := "TransactionCode", Value := Itoa ed.TransactionCode,
          Msg := Msg.msgFieldInclusion }) ∧
    (ed.recordType ≠ [] → ed.TransactionCode ≠ 0 → ed.RDFIIdentification = [] →
      ed.Validate v = some
        { FieldName := "RDFIIdentification", Value := ed.RDFIIdentificationField,
          Msg := Msg.msgFieldInclusion }) ∧
    (ed.recordType ≠ [] → ed.TransactionCode ≠ 0 → ed.RDFIIdentification ≠ [] →
      ed.DFIAccountNumber = [] →
      ed.Validate v = some
        { FieldName := "DFIAccountNumber", Value := ed.DFIAccountNumber,
          Msg := Msg.msgFieldInclusion }) ∧
    (ed.recordType ≠ [] → ed.TransactionCode ≠ 0 → ed.RDFIIdentification ≠ [] →
      ed.DFIAccountNumber ≠ [] → ed.IndividualName = [] →
      ed.Validate v = some
        { FieldName := "IndividualName", Value := ed.IndividualName,
          Msg := Msg.msgFieldInclusion }) ∧
    (ed.recordType ≠ [] → ed.TransactionCode ≠ 0 → ed.RDFIIdentification ≠ [] →
      ed.DFIAccountNumber ≠ [] → ed.IndividualName ≠ [] → ed.TraceNumber = 0 →
      ed.Validate v = some
        { FieldName := "TraceNumber", Value := ed.TraceNumberField,
          Msg := Msg.msgFieldInclusion }) ∧
    (ed.recordType ≠ [] → ed.TransactionCode ≠ 0 → ed.RDFIIdentification ≠ [] →
      ed.DFIAccountNumber ≠ [] → ed.IndividualName ≠ [] → ed.TraceNumber ≠ 0 →
      ed.fieldInclusion = none ∧
      ∀ err, ed.Validate v = some err → err.Msg ≠ Msg.msgFieldInclusion) ∧
    (∀ (amount : Int) (checkDigit identification discretionary : Str),
      ({ ed with Amount := amount, CheckDigit := checkDigit,
                 IdentificationNumber := identification,
                 DiscretionaryData := discretionary } : EntryDetail).fieldInclusion
        = ed.fieldInclusion) := by
  refine ⟨?_, ?_, ?_, ?_, ?_, ?_, ?_, ?_⟩
  · intro h1
    apply Validate_of_fieldInclusion
    unfold EntryDetail.fieldInclusion
    rw [if_pos h1]
  · intro h1 h2
    apply Validate_of_fieldInclusion
    unfold EntryDetail.fieldInclusion
    rw [if_neg h1, if_pos h2]
  · intro h1 h2 h3
    apply Validate_of_fieldInclusion
    unfold EntryDetail.fieldInclusion
    rw [if_neg h1, if_neg h2, if_pos h3]
  · intro h1 h2 h3 h4
    apply Validate_of_fieldInclusion
    unfold EntryDetail.fieldInclusion
    rw [if_neg h1, if_neg h2, if_neg h3, if_pos h4]
  · intro h1 h2 h3 h4 h5
    apply Validate_of_fieldInclusion
    unfold EntryDetail.fieldInclusion
    rw [if_neg h1, if_neg h2, if_neg h3, if_neg h4, if_pos h5]
  · intro h1 h2 h3 h4 h5 h6
    apply Validate_of_fieldInclusion
    unfold EntryDetail.fieldInclusion
    rw [if_neg h1, if_neg h2, if_neg h3, if_neg h4, if_neg h5, if_pos h6]
  · intro h1 h2 h3 h4 h5 h6
    have hnone := (fieldInclusion_eq_none_iff ed).mpr ⟨h1, h2, h3, h4, h5, h6⟩
    exact ⟨hnone, Validate_msg_of_fieldInclusion_none v ed hnone⟩
  · intro amount checkDigit identification discretionary
    rfl

/-- C23, at the entry returned by NewEntryDetail(), whose first zero-valued mandatory field
is TransactionCode, and at the sample entry with Amount 0 and the three optional texts
empty, which passes field inclusion. -/
theorem C23_Validate_field_inclusion_first_witness :
    NewEntryDetail.Validate sampleValidator = some
      { FieldName := "TransactionCode", Value := "0".toList, Msg := Msg.msgFieldInclusion } ∧
    ({ sampleEntry with Amount := 0, CheckDigit := [], IdentificationNumber := [],
                        DiscretionaryData := [] } : EntryDetail).fieldInclusion = none :=
  ⟨(C23_Validate_field_inclusion_first sampleValidator NewEntryDetail).2.1 (by decide)
      (by decide),
   ((C23_Validate_field_inclusion_first sampleValidator
      { sampleEntry with Amount := 0, CheckDigit := [], IdentificationNumber := [],
                         DiscretionaryData := [] }).2.2.2.2.2.2.1
      (by decide) (by decide) (by decide) (by decide) (by decide) (by decide)).1⟩

/-- C24: for every Addenda17, with "17" among the accepted type codes, Validate returns no
error if and only if recordType = "7", typeCode = "17", SequenceNumber is not 0,
EntryDetailSequenceNumber is not 0 and PaymentRelatedInformation passes isAlphanumeric.  An
Addenda17 parsed from a 94-character line whose characters at offsets 1..2 are not "17" and
whose two sequence numbers are not 0 is rejected with a FieldError named "TypeCode". -/
theorem C24_Addenda17_Validate_iff (v : validator) (a : Addenda17)
    (h17 : "17".toList ∈ v.typeCodes) :
    (a.Validate v = none ↔
      a.recordType = "7".toList ∧ a.typeCode = "17".toList ∧ a.SequenceNumber ≠ 0 ∧
      a.EntryDetailSequenceNumber ≠ 0 ∧
      isAlphanumeric v a.PaymentRelatedInformation = none) ∧
    (∀ (record : Str) (parsed : Addenda17), record.length = 94 →
      (record.drop 1).take 2 ≠ "17".toList → a.Parse record = some parsed →
      parsed.SequenceNumber ≠ 0 → parsed.EntryDetailSequenceNumber ≠ 0 →
      ∃ err, parsed.Validate v = some err ∧ err.FieldName = "TypeCode") := by
  constructor
  · rw [Addenda17_Validate_eq_none_iff, Addenda17_fieldInclusion_eq_none_iff]
    constructor
    · rintro ⟨⟨-, -, h3, h4⟩, h5, -, h7, h8⟩
      exact ⟨h5, h7, h3, h4, h8⟩
    · rintro ⟨h5, h7, h3, h4, h8⟩
      refine ⟨⟨by rw [h5]; decide, by rw [h7]; decide, h3, h4⟩, h5, ?_, h7, h8⟩
      unfold isTypeCode
      rw [h7, if_pos h17]
  · intro record parsed hlen hne hparse hseq hentry
    rw [Addenda17_Parse_of_length a record (by omega)] at hparse
    have hp := Option.some.inj hparse
    have hrt : parsed.recordType = "7".toList := by rw [← hp]
    have htc : parsed.typeCode = (record.drop 1).take 2 := by rw [← hp]
    have hnil : parsed.typeCode ≠ [] := by
      rw [htc]
      intro h
      have := chunk_length record 1 2 (by omega)
      rw [h] at this
      simp at this
    exact Addenda17_Validate_typeCode v parsed hrt hnil (by rw [htc]; exact hne) hseq hentry

/-- C24, at the sample Addenda17, which validates, and at the sample line with the type code
05, which is rejected on TypeCode. -/
theorem C24_Addenda17_Validate_iff_witness :
    sampleIATAddenda.Validate sampleValidator = none ∧
    ∃ err, (sampleIATAddenda.Parse wrongTypeCodeLine).bind (Addenda17.Validate sampleValidator)
        = some err ∧ err.FieldName = "TypeCode" :=
  ⟨(C24_Addenda17_Validate_iff sampleValidator sampleIATAddenda (by decide)).1.mpr
      (by decide),
   by
    obtain ⟨err, h1, h2⟩ :=
      (C24_Addenda17_Validate_iff sampleValidator sampleIATAddenda (by decide)).2
        wrongTypeCodeLine _ (by decide) (by decide) rfl (by decide) (by decide)
    exact ⟨err, h1, h2⟩⟩

/-- C25: for every sequence of AddAddenda calls applied to NewEntryDetail(), the calls
complete and the resulting Addendum list holds at most one record of the kinds Addenda99,
Addenda98 and Addenda02 taken together; a record of these kinds in the list is its first
element. -/
theorem C25_at_most_one_exclusive (as : List Addendumer) :
    ∃ ed, NewEntryDetail.calls (as.map EntryCall.AddAddenda) = some ed ∧
      (ed.Addendum.filter Addendumer.exclusive).length ≤ 1 ∧
      ∀ x ∈ ed.Addendum, x.exclusive = true → ed.Addendum.head? = some x := by
  obtain ⟨ed, h1, h2⟩ := calls_AddAddenda_tail as NewEntryDetail (by intro x hx; cases hx)
  exact ⟨ed, h1, filter_exclusive_of_tail ed.Addendum h2⟩

/-- C26: for every EntryDetail and all ASCII strings a, b, c without leading or trailing
white space and of at most 9, 4 and 2 characters, after SetPOPCheckSerialNumber(a),
SetPOPTerminalCity(b), SetPOPTerminalState(c) in that order IdentificationNumber has 15
characters, a space-padded to 9, then b space-padded to 4, then c space-padded to 2, and
POPCheckSerialNumberField() = a, POPTerminalCityField() = b, POPTerminalStateField() = c. -/
theorem C26_POP_subfields (ed : EntryDetail) (a b c : Str)
    (_hascii : ∀ x ∈ a ++ b ++ c, x.toNat < 128)
    (_ha1 : ∀ x, a.head? = some x → asciiSpace x = false)
    (ha2 : ∀ x, a.getLast? = some x → asciiSpace x = false)
    (_hb1 : ∀ x, b.head? = some x → asciiSpace x = false)
    (hb2 : ∀ x, b.getLast? = some x → asciiSpace x = false)
    (_hc1 : ∀ x, c.head? = some x → asciiSpace x = false)
    (hc2 : ∀ x, c.getLast? = some x → asciiSpace x = false)
    (hla : a.length ≤ 9) (hlb : b.length ≤ 4) (hlc : c.length ≤ 2) :
    (((ed.SetPOPCheckSerialNumber a).SetPOPTerminalCity b).SetPOPTerminalState
        c).IdentificationNumber
      = (a ++ List.replicate (9 - a.length) ' ') ++ (b ++ List.replicate (4 - b.length) ' ') ++
          (c ++ List.replicate (2 - c.length) ' ') ∧
    (((ed.SetPOPCheckSerialNumber a).SetPOPTerminalCity b).SetPOPTerminalState
        c).IdentificationNumber.length = 15 ∧
    (((ed.SetPOPCheckSerialNumber a).SetPOPTerminalCity b).SetPOPTerminalState
        c).POPCheckSerialNumberField = some a ∧
    (((ed.SetPOPCheckSerialNumber a).SetPOPTerminalCity b).SetPOPTerminalState
        c).POPTerminalCityField = some b ∧
    (((ed.SetPOPCheckSerialNumber a).SetPOPTerminalCity b).SetPOPTerminalState
        c).POPTerminalStateField = some c := by
  have hid : (((ed.SetPOPCheckSerialNumber a).SetPOPTerminalCity b).SetPOPTerminalState
      c).IdentificationNumber = alphaField a 9 ++ alphaField b 4 ++ alphaField c 2 := rfl
  have l9 := alphaField_length a 9
  have l4 := alphaField_length b 4
  have l2 := alphaField_length c 2
  refine ⟨?_, ?_, ?_, ?_, ?_⟩
  · rw [hid, alphaField_of_le a 9 hla, alphaField_of_le b 4 hlb, alphaField_of_le c 2 hlc]
  · rw [hid]
    simp only [List.length_append, l9, l4, l2]
  · simp only [EntryDetail.POPCheckSerialNumberField, hid]
    have := slice_of_chunks [] (alphaField a 9) (alphaField b 4 ++ alphaField c 2) 0 9 rfl
      (by omega)
    simp only [List.nil_append] at this
    rw [List.append_assoc, this]
    simp only [Option.pure_def, Option.bind_eq_bind, Option.some_bind,
      parseStringField_alphaField a 9 hla ha2]
  · simp only [EntryDetail.POPTerminalCityField, hid]
    rw [List.append_assoc,
      slice_of_chunks (alphaField a 9) (alphaField b 4) (alphaField c 2) 9 13 l9 (by omega)]
    simp only [Option.pure_def, Option.bind_eq_bind, Option.some_bind,
      parseStringField_alphaField b 4 hlb hb2]
  · simp only [EntryDetail.POPTerminalStateField, hid]
    have := slice_of_chunks (alphaField a 9 ++ alphaField b 4) (alphaField c 2) [] 13 15
      (by simp only [List.length_append]; omega) (by omega)
    simp only [List.append_nil] at this
    rw [this]
    simp only [Option.pure_def, Option.bind_eq_bind, Option.some_bind,
      parseStringField_alphaField c 2 hlc hc2]

/-- C26, at the check serial number 123, the city PHIL and the state PA. -/
theorem C26_POP_subfields_witness :
    (((sampleEntry.SetPOPCheckSerialNumber "123".toList).SetPOPTerminalCity
        "PHIL".toList).SetPOPTerminalState "PA".toList).IdentificationNumber
      = "123      PHILPA".toList ∧
    (((sampleEntry.SetPOPCheckSerialNumber "123".toList).SetPOPTerminalCity
        "PHIL".toList).SetPOPTerminalState "PA".toList).POPCheckSerialNumberField
      = some "123".toList :=
  ⟨(C26_POP_subfields sampleEntry "123".toList "PHIL".toList "PA".toList (by decide)
      (by decide) (by decide) (by decide) (by decide) (by decide) (by decide) (by decide)
      (by decide) (by decide)).1.trans (by decide),
   (C26_POP_subfields sampleEntry "123".toList "PHIL".toList "PA".toList (by decide)
      (by decide) (by decide) (by decide) (by decide) (by decide) (by decide) (by decide)
      (by decide) (by decide)).2.2.1⟩

/-- C27: for every EntryDetail, every integer i with 0 <= i <= 9999 and every ASCII string s
of at most 16 characters without leading or trailing white space, after
SetCTXAddendaRecords(i) followed by SetCTXReceivingCompany(s) IndividualName has 22
characters, CTXAddendaRecordsField() is i rendered as 4 zero-padded digits,
CTXReceivingCompanyField() = s and CTXReservedField() is two spaces. -/
theorem C27_CTX_subfields (ed : EntryDetail) (i : Int) (s : Str)
    (hi0 : 0 ≤ i) (hi1 : i ≤ 9999)
    (_hascii : ∀ x ∈ s, x.toNat < 128)
    (_hs1 : ∀ x, s.head? = some x → asciiSpace x = false)
    (hs2 : ∀ x, s.getLast? = some x → asciiSpace x = false)
    (hls : s.length ≤ 16) :
    ((ed.SetCTXAddendaRecords i).SetCTXReceivingCompany s).IndividualName.length = 22 ∧
    ((ed.SetCTXAddendaRecords i).SetCTXReceivingCompany s).CTXAddendaRecordsField
      = some (List.replicate (4 - (Itoa i).length) '0' ++ Itoa i) ∧
    (List.replicate (4 - (Itoa i).length) '0' ++ Itoa i).length = 4 ∧
    parseNumField (List.replicate (4 - (Itoa i).length) '0' ++ Itoa i) = i ∧
    ((ed.SetCTXAddendaRecords i).SetCTXReceivingCompany s).CTXReceivingCompanyField = some s ∧
    ((ed.SetCTXAddendaRecords i).SetCTXReceivingCompany s).CTXReservedField
      = some "  ".toList := by
  have hname : ((ed.SetCTXAddendaRecords i).SetCTXReceivingCompany s).IndividualName
      = numericField i 4 ++ alphaField s 16 ++ "  ".toList := rfl
  have l4 := numericField_length i 4
  have l16 := alphaField_length s 16
  have hnum := numericField_nonneg i 3 hi0 (by norm_num; omega)
  have hrender : numericField i 4 = List.replicate (4 - (Itoa i).length) '0' ++ Itoa i := by
    rw [hnum, Itoa_nonneg i hi0]
  have hdig : ∀ c ∈ numericField i 4, c.isDigit = true :=
    numericField_all_isDigit i 3 hi0 (by norm_num; omega)
  refine ⟨?_, ?_, ?_, ?_, ?_, ?_⟩
  · rw [hname]
    simp only [List.length_append, l4, l16]
    rfl
  · simp only [EntryDetail.CTXAddendaRecordsField, hname]
    have := slice_of_chunks [] (numericField i 4) (alphaField s 16 ++ "  ".toList) 0 4 rfl
      (by omega)
    simp only [List.nil_append] at this
    rw [List.append_assoc, this]
    simp only [Option.pure_def, Option.bind_eq_bind, Option.some_bind]
    rw [parseStringField_digits _ hdig, hrender]
  · rw [← hrender]; exact l4
  · exact parseNumField_zeros_Itoa _ i hi0
  · simp only [EntryDetail.CTXReceivingCompanyField, hname]
    rw [List.append_assoc,
      slice_of_chunks (numericField i 4) (alphaField s 16) "  ".toList 4 20 l4 (by omega)]
    simp only [Option.pure_def, Option.bind_eq_bind, Option.some_bind,
      parseStringField_alphaField s 16 hls hs2]
  · simp only [EntryDetail.CTXReservedField, hname]
    have := slice_of_chunks (numericField i 4 ++ alphaField s 16) "  ".toList [] 20 22
      (by simp only [List.length_append]; omega) (by decide)
    simp only [List.append_nil] at this
    exact this

/-- C27, at 7 addenda records and the receiving company ACME. -/
theorem C27_CTX_subfields_witness :
    ((sampleEntry.SetCTXAddendaRecords 7).SetCTXReceivingCompany "ACME".toList).IndividualName
      = "0007ACME              ".toList ∧
    ((sampleEntry.SetCTXAddendaRecords 7).SetCTXReceivingCompany
        "ACME".toList).CTXAddendaRecordsField = some "0007".toList ∧
    ((sampleEntry.SetCTXAddendaRecords 7).SetCTXReceivingCompany
        "ACME".toList).CTXReceivingCompanyField = some "ACME".toList :=
  ⟨by decide,
   (C27_CTX_subfields sampleEntry 7 "ACME".toList (by decide) (by decide) (by decide)
      (by decide) (by decide) (by decide)).2.1.trans (by decide),
   (C27_CTX_subfields sampleEntry 7 "ACME".toList (by decide) (by decide) (by decide)
      (by decide) (by decide) (by decide)).2.2.2.2.1⟩

/-- C28: EntryDetail.Parse and Addenda17.Parse read only offsets below 94.  For every input
of at least 94 characters every slice they take is in bounds, Parse completes and its result
is that of the first 94 characters; for every input shorter than 94 characters the last slice
(line[79:94], respectively line[87:94]) is out of range and Parse fails, returning no
record. -/
theorem C28_Parse_bounds (ed : EntryDetail) (a : Addenda17) (record : Str) :
    (94 ≤ record.length →
      (∀ p ∈ [(1, 3), (3, 11), (11, 12), (12, 29), (29, 39), (39, 54), (54, 76), (76, 78),
          (78, 79), (79, 94), (3, 83), (83, 87), (87, 94)],
        (slice record p.1 p.2).isSome = true) ∧
      (ed.Parse record).isSome = true ∧ ed.Parse record = ed.Parse (record.take 94) ∧
      (a.Parse record).isSome = true ∧ a.Parse record = a.Parse (record.take 94)) ∧
    (record.length < 94 →
      slice record 79 94 = none ∧ ed.Parse record = none ∧
      slice record 87 94 = none ∧ a.Parse record = none) := by
  constructor
  · intro h
    refine ⟨?_, ?_, Parse_take ed record h, ?_, Addenda17_Parse_take a record h⟩
    · intro p hp
      simp only [List.mem_cons, List.mem_singleton, List.not_mem_nil, or_false] at hp
      rcases hp with rfl | rfl | rfl | rfl | rfl | rfl | rfl | rfl | rfl | rfl | rfl | rfl | rfl <;>
        (rw [slice_of_le record _ _ (by omega) (by omega)]; rfl)
    · rw [Parse_of_length ed record h]; rfl
    · rw [Addenda17_Parse_of_length a record h]; rfl
  · intro h
    exact ⟨slice_of_lt record 79 94 h, Parse_of_short ed record h,
      slice_of_lt record 87 94 h, Addenda17_Parse_of_short a record h⟩

/-- C28, at the sample line, which both methods parse, and at its first 93 characters, on
which both fail. -/
theorem C28_Parse_bounds_witness :
    (NewEntryDetail.Parse sampleLine).isSome = true ∧
    (NewAddenda17.Parse sampleLine).isSome = true ∧
    NewEntryDetail.Parse (sampleLine.take 93) = none ∧
    NewAddenda17.Parse (sampleLine.take 93) = none :=
  ⟨((C28_Parse_bounds NewEntryDetail NewAddenda17 sampleLine).1 (by decide)).2.1,
   ((C28_Parse_bounds NewEntryDetail NewAddenda17 sampleLine).1 (by decide)).2.2.2.1,
   ((C28_Parse_bounds NewEntryDetail NewAddenda17 (sampleLine.take 93)).2 (by decide)).2.1,
   ((C28_Parse_bounds NewEntryDetail NewAddenda17 (sampleLine.take 93)).2 (by decide)).2.2.2⟩

/-- C29: the slice tc[1:2] that CreditOrDebit takes of the decimal rendering of
TransactionCode is in bounds if and only if the rendering has at least two characters, which
is when TransactionCode >= 10 or TransactionCode < 0; for 0 <= TransactionCode <= 9, the
entry returned by NewEntryDetail() included, the slice is out of range and CreditOrDebit
returns no value. -/
theorem C29_CreditOrDebit_slice_bounds (ed : EntryDetail) :
    ((slice (Itoa ed.TransactionCode) 1 2).isSome = true ↔
      2 ≤ (Itoa ed.TransactionCode).length) ∧
    (2 ≤ (Itoa ed.TransactionCode).length ↔
      (10 ≤ ed.TransactionCode ∨ ed.TransactionCode < 0)) ∧
    (ed.CreditOrDebit = none ↔ 0 ≤ ed.TransactionCode ∧ ed.TransactionCode ≤ 9) ∧
    (0 ≤ ed.TransactionCode ∧ ed.TransactionCode ≤ 9 →
      slice (Itoa ed.TransactionCode) 1 2 = none ∧ ed.CreditOrDebit = none) ∧
    NewEntryDetail.CreditOrDebit = none := by
  have hlen := Itoa_length_ge_two_iff ed.TransactionCode
  have hnone : ed.CreditOrDebit = none ↔ 0 ≤ ed.TransactionCode ∧ ed.TransactionCode ≤ 9 := by
    rw [CreditOrDebit_eq_none_iff, slice_one_two_eq_none_iff]
    constructor
    · intro h
      by_contra hcon
      have := hlen.mpr (by omega)
      omega
    · intro h
      by_contra hcon
      have := hlen.mp (by omega)
      omega
  refine ⟨?_, hlen, hnone, ?_, by decide⟩
  · have hs := slice_one_two_eq_none_iff (Itoa ed.TransactionCode)
    cases h : slice (Itoa ed.TransactionCode) 1 2 with
    | none =>
      have := hs.mp h
      constructor
      · intro hf; cases hf
      · intro hf; omega
    | some x =>
      rw [h] at hs
      constructor
      · intro _
        by_contra hc
        have := hs.mpr (by omega)
        cases this
      · intro _; rfl
  · intro h
    exact ⟨(CreditOrDebit_eq_none_iff ed).mp (hnone.mpr h), hnone.mpr h⟩

/-- C29, at the entry returned by NewEntryDetail(), whose TransactionCode is 0. -/
theorem C29_CreditOrDebit_slice_bounds_witness :
    NewEntryDetail.TransactionCode = 0 ∧
    slice (Itoa NewEntryDetail.TransactionCode) 1 2 = none ∧
    NewEntryDetail.CreditOrDebit = none :=
  ⟨by decide,
    (C29_CreditOrDebit_slice_bounds NewEntryDetail).2.2.2.1 (by decide)⟩

end ach
